import Mathlib

/-!
Shallow embedding of the fluid solver of src/fluid.js (class Fluid and the
helper getGridIndex), together with the configuration constants of
src/sketch.js. JS numbers are modelled as exact rationals, typed arrays as
lists of rationals read through getD with default 0 (the source never reads
out of range, because getGridIndex clamps), and the globals GRID_SIZE and
SOLVER_ITERATIONS are passed as explicit parameters gs and iters. Loops
become folds over explicit index lists in the same iteration order as the
source, and in-place writes become List.set.
-/

/-- Repository configuration constant GRID_SIZE from src/sketch.js. -/
def GRID_SIZE : Nat := 200

/-- Repository configuration constant SOLVER_ITERATIONS from src/sketch.js. -/
def SOLVER_ITERATIONS : Nat := 8

/-- The p5 helper constrain on numbers: max(min(n, high), low). -/
def qconstrain (n lo hi : ℚ) : ℚ := max (min n hi) lo

/-- The p5 helper constrain on integer coordinates. -/
def zconstrain (n lo hi : ℤ) : ℤ := max (min n hi) lo

/-- getGridIndex of src/fluid.js: clamp x and y into [0, GRID_SIZE+1] and
return x + (GRID_SIZE+2) * y as an offset into the padded buffer. -/
def getGridIndex (gs : ℕ) (x y : ℤ) : ℕ :=
  (zconstrain x 0 ((gs : ℤ) + 1) + ((gs : ℤ) + 2) * zconstrain y 0 ((gs : ℤ) + 1)).toNat

/-- The interior cell coordinates swept by every hot loop of the source:
x and y both range over 1 .. GRID_SIZE-2, with y in the outer loop, so the
list is in row-major order exactly like the nested for loops. -/
def interiorCells (gs : ℕ) : List (ℕ × ℕ) :=
  (List.range' 1 (gs - 2)).flatMap (fun y => (List.range' 1 (gs - 2)).map (fun x => (x, y)))

/-- Body of the first loop of setBoundaryConditions: write the top and
bottom halo cells of column x (negated for boundaryType 2). -/
def bndTopBottom (gs : ℕ) (b : ℕ) (f : List ℚ) (x : ℕ) : List ℚ :=
  let v1 := f.getD (getGridIndex gs (x : ℤ) 1) 0
  let f1 := f.set (getGridIndex gs (x : ℤ) 0) (if b = 2 then -v1 else v1)
  let v2 := f1.getD (getGridIndex gs (x : ℤ) ((gs : ℤ) - 2)) 0
  f1.set (getGridIndex gs (x : ℤ) ((gs : ℤ) - 1)) (if b = 2 then -v2 else v2)

/-- Body of the second loop of setBoundaryConditions: write the left and
right halo cells of row y (negated for boundaryType 1). -/
def bndLeftRight (gs : ℕ) (b : ℕ) (f : List ℚ) (y : ℕ) : List ℚ :=
  let v1 := f.getD (getGridIndex gs 1 (y : ℤ)) 0
  let f1 := f.set (getGridIndex gs 0 (y : ℤ)) (if b = 1 then -v1 else v1)
  let v2 := f1.getD (getGridIndex gs ((gs : ℤ) - 2) (y : ℤ)) 0
  f1.set (getGridIndex gs ((gs : ℤ) - 1) (y : ℤ)) (if b = 1 then -v2 else v2)

/-- setBoundaryConditions of src/fluid.js: top/bottom edges, then left/right
edges, then the four corners, in source order. -/
def setBoundaryConditions (gs : ℕ) (b : ℕ) (f : List ℚ) : List ℚ :=
  let f1 := (List.range' 1 (gs - 2)).foldl (bndTopBottom gs b) f
  let f2 := (List.range' 1 (gs - 2)).foldl (bndLeftRight gs b) f1
  let f3 := f2.set (getGridIndex gs 0 0)
    ((1/2) * (f2.getD (getGridIndex gs 1 0) 0 + f2.getD (getGridIndex gs 0 1) 0))
  let f4 := f3.set (getGridIndex gs 0 ((gs : ℤ) - 1))
    ((1/2) * (f3.getD (getGridIndex gs 1 ((gs : ℤ) - 1)) 0 +
              f3.getD (getGridIndex gs 0 ((gs : ℤ) - 2)) 0))
  let f5 := f4.set (getGridIndex gs ((gs : ℤ) - 1) 0)
    ((1/2) * (f4.getD (getGridIndex gs ((gs : ℤ) - 2) 0) 0 +
              f4.getD (getGridIndex gs ((gs : ℤ) - 1) 1) 0))
  f5.set (getGridIndex gs ((gs : ℤ) - 1) ((gs : ℤ) - 1))
    ((1/2) * (f5.getD (getGridIndex gs ((gs : ℤ) - 2) ((gs : ℤ) - 1)) 0 +
              f5.getD (getGridIndex gs ((gs : ℤ) - 1) ((gs : ℤ) - 2)) 0))

/-- One interior cell update of solveLinearSystem (Gauss-Seidel): the cell
becomes (source + factorA * sum of current neighbor values) * (1/factorC). -/
def linStep (gs : ℕ) (a c : ℚ) (source : List ℚ) (t : List ℚ) (p : ℕ × ℕ) : List ℚ :=
  let i := getGridIndex gs (p.1 : ℤ) (p.2 : ℤ)
  t.set i ((source.getD i 0 + a *
    (t.getD (getGridIndex gs ((p.1 : ℤ) + 1) (p.2 : ℤ)) 0 +
     t.getD (getGridIndex gs ((p.1 : ℤ) - 1) (p.2 : ℤ)) 0 +
     t.getD (getGridIndex gs (p.1 : ℤ) ((p.2 : ℤ) + 1)) 0 +
     t.getD (getGridIndex gs (p.1 : ℤ) ((p.2 : ℤ) - 1)) 0)) * (1 / c))

/-- One full interior sweep of solveLinearSystem, in row-major order. -/
def linSweep (gs : ℕ) (a c : ℚ) (source t : List ℚ) : List ℚ :=
  (interiorCells gs).foldl (linStep gs a c source) t

/-- solveLinearSystem of src/fluid.js: iterate (sweep then boundary pass)
the given number of times. The source takes the count from the global
SOLVER_ITERATIONS; it is a parameter here. -/
def solveLinearSystem (gs iters : ℕ) (b : ℕ) (target source : List ℚ) (a c : ℚ) : List ℚ :=
  (fun t => setBoundaryConditions gs b (linSweep gs a c source t))^[iters] target

/-- diffuseField of src/fluid.js: diffusionFactor = dt * rate * (GRID_SIZE-2)^2
and the relaxation denominator is 1 + 6 * diffusionFactor. -/
def diffuseField (gs iters : ℕ) (dt : ℚ) (b : ℕ) (target source : List ℚ) (rate : ℚ) : List ℚ :=
  solveLinearSystem gs iters b target source (dt * rate * ((gs : ℚ) - 2) * ((gs : ℚ) - 2))
    (1 + 6 * (dt * rate * ((gs : ℚ) - 2) * ((gs : ℚ) - 2)))

/-- The backward trace of advectField along one axis: coordinate minus
dt * (GRID_SIZE - 2) * velocity, clamped into [0.5, GRID_SIZE + 0.5]. -/
def backTrace (gs : ℕ) (dt : ℚ) (v : List ℚ) (i : ℕ) (coord : ℕ) : ℚ :=
  qconstrain ((coord : ℚ) - dt * ((gs : ℚ) - 2) * v.getD i 0) (1/2) ((gs : ℚ) + 1/2)

/-- The bilinear interpolation of advectField at fractional position (sx, sy). -/
def bilerp (gs : ℕ) (source : List ℚ) (sx sy : ℚ) : ℚ :=
  let x0 := ⌊sx⌋
  let y0 := ⌊sy⌋
  let wx1 := sx - (x0 : ℚ)
  let wx0 := 1 - wx1
  let wy1 := sy - (y0 : ℚ)
  let wy0 := 1 - wy1
  wx0 * (wy0 * source.getD (getGridIndex gs x0 y0) 0 +
         wy1 * source.getD (getGridIndex gs x0 (y0 + 1)) 0) +
  wx1 * (wy0 * source.getD (getGridIndex gs (x0 + 1) y0) 0 +
         wy1 * source.getD (getGridIndex gs (x0 + 1) (y0 + 1)) 0)

/-- One interior cell update of advectField. -/
def advStep (gs : ℕ) (dt : ℚ) (source vx vy : List ℚ) (t : List ℚ) (p : ℕ × ℕ) : List ℚ :=
  let i := getGridIndex gs (p.1 : ℤ) (p.2 : ℤ)
  t.set i (bilerp gs source (backTrace gs dt vx i p.1) (backTrace gs dt vy i p.2))

/-- advectField of src/fluid.js: semi-Lagrangian transport of source along
the velocity field, then the boundary pass. -/
def advectField (gs : ℕ) (dt : ℚ) (b : ℕ) (target source vx vy : List ℚ) : List ℚ :=
  setBoundaryConditions gs b ((interiorCells gs).foldl (advStep gs dt source vx vy) target)

/-- One interior cell update of the divergence phase of
enforceIncompressibility: writes divergence, then zeroes pressure. The state
is the pair (divergence, pressure). -/
def divStep (gs : ℕ) (vx vy : List ℚ) (dp : List ℚ × List ℚ) (p : ℕ × ℕ) : List ℚ × List ℚ :=
  let i := getGridIndex gs (p.1 : ℤ) (p.2 : ℤ)
  (dp.1.set i (-(1/2) * (vx.getD (getGridIndex gs ((p.1 : ℤ) + 1) (p.2 : ℤ)) 0 -
                         vx.getD (getGridIndex gs ((p.1 : ℤ) - 1) (p.2 : ℤ)) 0 +
                         vy.getD (getGridIndex gs (p.1 : ℤ) ((p.2 : ℤ) + 1)) 0 -
                         vy.getD (getGridIndex gs (p.1 : ℤ) ((p.2 : ℤ) - 1)) 0) / (gs : ℚ)),
   dp.2.set i 0)

/-- One interior cell update of the gradient-subtraction phase of
enforceIncompressibility. The state is the pair (velocityX, velocityY). -/
def gradStep (gs : ℕ) (pr : List ℚ) (vv : List ℚ × List ℚ) (p : ℕ × ℕ) : List ℚ × List ℚ :=
  let i := getGridIndex gs (p.1 : ℤ) (p.2 : ℤ)
  (vv.1.set i (vv.1.getD i 0 - (1/2) *
      (pr.getD (getGridIndex gs ((p.1 : ℤ) + 1) (p.2 : ℤ)) 0 -
       pr.getD (getGridIndex gs ((p.1 : ℤ) - 1) (p.2 : ℤ)) 0) * (gs : ℚ)),
   vv.2.set i (vv.2.getD i 0 - (1/2) *
      (pr.getD (getGridIndex gs (p.1 : ℤ) ((p.2 : ℤ) + 1)) 0 -
       pr.getD (getGridIndex gs (p.1 : ℤ) ((p.2 : ℤ) - 1)) 0) * (gs : ℚ)))

/-- enforceIncompressibility of src/fluid.js. Returns the four mutated
buffers (velocityX, velocityY, pressure, divergence). -/
def enforceIncompressibility (gs iters : ℕ) (vx vy pr dv : List ℚ) :
    List ℚ × List ℚ × List ℚ × List ℚ :=
  let dp := (interiorCells gs).foldl (divStep gs vx vy) (dv, pr)
  let d1 := setBoundaryConditions gs 0 dp.1
  let p1 := setBoundaryConditions gs 0 dp.2
  let p2 := solveLinearSystem gs iters 0 p1 d1 1 6
  let vv := (interiorCells gs).foldl (gradStep gs p2) (vx, vy)
  (setBoundaryConditions gs 1 vv.1, setBoundaryConditions gs 2 vv.2, p2, d1)

/-- The Fluid class state of src/fluid.js: scalar parameters and the eight
padded field buffers. -/
structure Fluid where
  timeStep : ℚ
  diffusion : ℚ
  viscosity : ℚ
  buoyancy : ℚ
  coolingRate : ℚ
  previousDensity : List ℚ
  density : List ℚ
  previousTemperature : List ℚ
  temperature : List ℚ
  horizontalVelocity : List ℚ
  verticalVelocity : List ℚ
  previousHorizontalVelocity : List ℚ
  previousVerticalVelocity : List ℚ
  deriving DecidableEq

/-- The Fluid constructor of src/fluid.js: stores the three numeric
parameters, sets buoyancy to 0 and coolingRate to 0.99, and allocates all
eight buffers zero-filled with (GRID_SIZE+2)^2 cells. The grid constant is
passed as an integer so that degenerate global values can be discussed; the
constructor itself has no failure path. -/
def mkFluid (gz : ℤ) (timeStep diffusionRate viscosity : ℚ) : Fluid :=
  { timeStep := timeStep
    diffusion := diffusionRate
    viscosity := viscosity
    buoyancy := 0
    coolingRate := 99/100
    previousDensity := List.replicate (((gz + 2) ^ 2).toNat) 0
    density := List.replicate (((gz + 2) ^ 2).toNat) 0
    previousTemperature := List.replicate (((gz + 2) ^ 2).toNat) 0
    temperature := List.replicate (((gz + 2) ^ 2).toNat) 0
    horizontalVelocity := List.replicate (((gz + 2) ^ 2).toNat) 0
    verticalVelocity := List.replicate (((gz + 2) ^ 2).toNat) 0
    previousHorizontalVelocity := List.replicate (((gz + 2) ^ 2).toNat) 0
    previousVerticalVelocity := List.replicate (((gz + 2) ^ 2).toNat) 0 }

/-- applyBuoyancyForce of src/fluid.js: for every buffer cell with positive
temperature, subtract temperature * buoyancy from the vertical velocity.
The source loops i over this.gridSize, which equals the buffer length. -/
def applyBuoyancyForce (buoy : ℚ) (temp vert : List ℚ) : List ℚ :=
  List.zipWith (fun v h => if 0 < h then v - h * buoy else v) vert temp

/-- Fluid.step of src/fluid.js, in source order: temperature diffusion and
advection, conditional buoyancy, velocity diffusion, projection, velocity
advection, projection, density diffusion and advection, decay. The decay
loop runs over every buffer cell. -/
def Fluid.step (gs iters : ℕ) (f : Fluid) : Fluid :=
  let pT := diffuseField gs iters f.timeStep 0 f.previousTemperature f.temperature f.diffusion
  let T := advectField gs f.timeStep 0 f.temperature pT f.horizontalVelocity f.verticalVelocity
  let vV1 := if 0 < f.buoyancy then applyBuoyancyForce f.buoyancy T f.verticalVelocity
             else f.verticalVelocity
  let pH := diffuseField gs iters f.timeStep 1 f.previousHorizontalVelocity
              f.horizontalVelocity f.viscosity
  let pV := diffuseField gs iters f.timeStep 2 f.previousVerticalVelocity vV1 f.viscosity
  let q1 := enforceIncompressibility gs iters pH pV f.horizontalVelocity vV1
  let hV3 := advectField gs f.timeStep 1 q1.2.2.1 q1.1 q1.1 q1.2.1
  let vV3 := advectField gs f.timeStep 2 q1.2.2.2 q1.2.1 q1.1 q1.2.1
  let q2 := enforceIncompressibility gs iters hV3 vV3 q1.1 q1.2.1
  let pD := diffuseField gs iters f.timeStep 0 f.previousDensity f.density f.diffusion
  let D := advectField gs f.timeStep 0 f.density pD q2.1 q2.2.1
  { f with
    previousTemperature := pT
    temperature := if 0 < f.buoyancy then T.map (fun h => h * f.coolingRate)
                   else T.map (fun _ => 0)
    previousHorizontalVelocity := q2.2.2.1
    previousVerticalVelocity := q2.2.2.2
    horizontalVelocity := q2.1.map (fun v => v * (99/100))
    verticalVelocity := q2.2.1.map (fun v => v * (99/100))
    previousDensity := pD
    density := D.map (fun d => d * (199/200)) }

/-! ### Basic facts about the grid indexer and buffer access -/

theorem getGridIndex_natCast (gs x y : ℕ) (hx : x ≤ gs + 1) (hy : y ≤ gs + 1) :
    getGridIndex gs (x : ℤ) (y : ℤ) = x + (gs + 2) * y := by
  unfold getGridIndex zconstrain
  have h1 : min (x : ℤ) ((gs : ℤ) + 1) = (x : ℤ) := by
    apply min_eq_left; exact_mod_cast hx
  have h2 : min (y : ℤ) ((gs : ℤ) + 1) = (y : ℤ) := by
    apply min_eq_left; exact_mod_cast hy
  rw [h1, h2, max_eq_left (Int.natCast_nonneg x), max_eq_left (Int.natCast_nonneg y)]
  have h3 : (x : ℤ) + ((gs : ℤ) + 2) * (y : ℤ) = ((x + (gs + 2) * y : ℕ) : ℤ) := by
    push_cast; ring
  rw [h3, Int.toNat_natCast]

theorem getGridIndex_lt (gs x y : ℕ) (hx : x ≤ gs + 1) (hy : y ≤ gs + 1) :
    getGridIndex gs (x : ℤ) (y : ℤ) < (gs + 2) ^ 2 := by
  rw [getGridIndex_natCast gs x y hx hy]
  have h1 : (gs + 2) * y ≤ (gs + 2) * (gs + 1) := Nat.mul_le_mul_left _ hy
  have h2 : (gs + 2) ^ 2 = (gs + 1) + (gs + 2) * (gs + 1) + 1 := by ring
  omega

theorem getGridIndex_inj (gs x1 y1 x2 y2 : ℕ) (hx1 : x1 ≤ gs + 1) (hy1 : y1 ≤ gs + 1)
    (hx2 : x2 ≤ gs + 1) (hy2 : y2 ≤ gs + 1)
    (h : getGridIndex gs (x1 : ℤ) (y1 : ℤ) = getGridIndex gs (x2 : ℤ) (y2 : ℤ)) :
    x1 = x2 ∧ y1 = y2 := by
  rw [getGridIndex_natCast gs x1 y1 hx1 hy1, getGridIndex_natCast gs x2 y2 hx2 hy2] at h
  have e1 : (x1 + (gs + 2) * y1) % (gs + 2) = (x2 + (gs + 2) * y2) % (gs + 2) := by rw [h]
  rw [Nat.add_mul_mod_self_left, Nat.add_mul_mod_self_left,
    Nat.mod_eq_of_lt (by omega), Nat.mod_eq_of_lt (by omega)] at e1
  have e2 : (x1 + (gs + 2) * y1) / (gs + 2) = (x2 + (gs + 2) * y2) / (gs + 2) := by rw [h]
  rw [Nat.add_mul_div_left _ _ (by omega), Nat.add_mul_div_left _ _ (by omega),
    Nat.div_eq_of_lt (by omega), Nat.div_eq_of_lt (by omega)] at e2
  omega

theorem getGridIndex_ne (gs x1 y1 x2 y2 : ℕ) (hx1 : x1 ≤ gs + 1) (hy1 : y1 ≤ gs + 1)
    (hx2 : x2 ≤ gs + 1) (hy2 : y2 ≤ gs + 1) (hne : x1 ≠ x2 ∨ y1 ≠ y2) :
    getGridIndex gs (x1 : ℤ) (y1 : ℤ) ≠ getGridIndex gs (x2 : ℤ) (y2 : ℤ) := by
  intro h
  rcases getGridIndex_inj gs x1 y1 x2 y2 hx1 hy1 hx2 hy2 h with ⟨h1, h2⟩
  rcases hne with h3 | h3 <;> exact h3 (by omega)

theorem getD_set_self (l : List ℚ) (i : ℕ) (v : ℚ) (h : i < l.length) :
    (l.set i v).getD i 0 = v := by
  rw [List.getD_eq_getElem?_getD, List.getElem?_set_self h]; rfl

theorem getD_set_ne (l : List ℚ) (i j : ℕ) (v : ℚ) (h : i ≠ j) :
    (l.set i v).getD j 0 = l.getD j 0 := by
  rw [List.getD_eq_getElem?_getD, List.getElem?_set_ne h, ← List.getD_eq_getElem?_getD]

theorem getD_replicate_zero (n i : ℕ) : (List.replicate n (0 : ℚ)).getD i 0 = 0 := by
  rw [List.getD_eq_getElem?_getD, List.getElem?_replicate]
  by_cases h : i < n <;> simp [h]

theorem set_replicate_zero (n i : ℕ) :
    (List.replicate n (0 : ℚ)).set i 0 = List.replicate n 0 := by
  rw [List.eq_replicate_iff]
  constructor
  · rw [List.length_set, List.length_replicate]
  · intro b hb
    rcases List.mem_or_eq_of_mem_set hb with h | h
    · exact List.eq_of_mem_replicate h
    · exact h

/-! ### Generic fold helpers -/

theorem foldl_invariant {β σ : Type} (F : σ → β → σ) (l : List β) (s : σ) (P : σ → Prop)
    (h0 : P s) (h : ∀ acc b, b ∈ l → P acc → P (F acc b)) : P (l.foldl F s) := by
  induction l generalizing s with
  | nil => exact h0
  | cons b bs ih =>
    rw [List.foldl_cons]
    exact ih (F s b) (h s b (List.mem_cons_self _ _) h0)
      (fun acc c hc hacc => h acc c (List.mem_cons_of_mem _ hc) hacc)

theorem foldl_set_getD_keep {β : Type} (F : List ℚ → β → List ℚ) (g : β → ℕ) (v : β → ℚ)
    (hF : ∀ acc b, F acc b = acc.set (g b) (v b)) (l : List β) (i : ℕ) (w : ℚ)
    (hcoll : ∀ b ∈ l, g b = i → v b = w) :
    ∀ t : List ℚ, t.getD i 0 = w → (l.foldl F t).getD i 0 = w := by
  induction l with
  | nil => intro t ht; exact ht
  | cons b bs ih =>
    intro t ht
    rw [List.foldl_cons, hF]
    apply ih (fun c hc => hcoll c (List.mem_cons_of_mem _ hc))
    by_cases hgb : g b = i
    · rw [hgb]
      by_cases hlt : i < t.length
      · rw [getD_set_self _ _ _ hlt]
        exact hcoll b (List.mem_cons_self _ _) hgb
      · rw [List.set_eq_of_length_le (by omega)]
        exact ht
    · rw [getD_set_ne _ _ _ _ hgb]
      exact ht

theorem foldl_set_getD {β : Type} (F : List ℚ → β → List ℚ) (g : β → ℕ) (v : β → ℚ)
    (hF : ∀ acc b, F acc b = acc.set (g b) (v b)) (l : List β) (b₀ : β) (i : ℕ) (w : ℚ)
    (hmem : b₀ ∈ l) (hi : g b₀ = i) (hw : v b₀ = w)
    (hcoll : ∀ b ∈ l, g b = i → v b = w) :
    ∀ t : List ℚ, i < t.length → (l.foldl F t).getD i 0 = w := by
  induction l with
  | nil => exact absurd hmem (List.not_mem_nil _)
  | cons b bs ih =>
    intro t hlen
    rw [List.foldl_cons, hF]
    by_cases hb : b₀ ∈ bs
    · exact ih hb (fun c hc => hcoll c (List.mem_cons_of_mem _ hc)) _
        (by rw [List.length_set]; exact hlen)
    · have hb₀ : b₀ = b := by
        rcases List.mem_cons.mp hmem with h | h
        · exact h
        · exact absurd h hb
      subst hb₀
      apply foldl_set_getD_keep F g v hF bs i w
        (fun c hc => hcoll c (List.mem_cons_of_mem _ hc))
      rw [hi, hw]
      exact getD_set_self _ _ _ hlen

theorem mem_interiorCells (gs x y : ℕ) :
    (x, y) ∈ interiorCells gs ↔ 1 ≤ x ∧ x ≤ gs - 2 ∧ 1 ≤ y ∧ y ≤ gs - 2 := by
  unfold interiorCells
  rw [List.mem_flatMap]
  constructor
  · rintro ⟨b, hb, hmem⟩
    rw [List.mem_map] at hmem
    rcases hmem with ⟨a, ha, heq⟩
    rw [List.mem_range'_1] at hb ha
    cases heq
    omega
  · rintro ⟨h1, h2, h3, h4⟩
    refine ⟨y, ?_, ?_⟩
    · rw [List.mem_range'_1]; omega
    · rw [List.mem_map]
      exact ⟨x, by rw [List.mem_range'_1]; omega, rfl⟩

/-! ### Write-site analysis of setBoundaryConditions -/

theorem getGridIndex_ne' (gs : ℕ) (a b : ℤ) (x y : ℕ) (ha0 : 0 ≤ a) (ha1 : a ≤ (gs : ℤ) + 1)
    (hb0 : 0 ≤ b) (hb1 : b ≤ (gs : ℤ) + 1) (hx : x ≤ gs + 1) (hy : y ≤ gs + 1)
    (hne : a ≠ (x : ℤ) ∨ b ≠ (y : ℤ)) :
    getGridIndex gs a b ≠ getGridIndex gs (x : ℤ) (y : ℤ) := by
  have e1 : a = ((a.toNat : ℕ) : ℤ) := (Int.toNat_of_nonneg ha0).symm
  have e2 : b = ((b.toNat : ℕ) : ℤ) := (Int.toNat_of_nonneg hb0).symm
  rw [e1, e2]
  apply getGridIndex_ne gs a.toNat b.toNat x y (by omega) (by omega) hx hy
  omega

theorem bndTopBottom_getD_ne (gs b : ℕ) (f : List ℚ) (x' : ℕ) (i : ℕ)
    (h1 : getGridIndex gs (x' : ℤ) 0 ≠ i) (h2 : getGridIndex gs (x' : ℤ) ((gs : ℤ) - 1) ≠ i) :
    (bndTopBottom gs b f x').getD i 0 = f.getD i 0 := by
  simp only [bndTopBottom]
  rw [getD_set_ne _ _ _ _ h2, getD_set_ne _ _ _ _ h1]

theorem bndLeftRight_getD_ne (gs b : ℕ) (f : List ℚ) (y' : ℕ) (i : ℕ)
    (h1 : getGridIndex gs 0 (y' : ℤ) ≠ i) (h2 : getGridIndex gs ((gs : ℤ) - 1) (y' : ℤ) ≠ i) :
    (bndLeftRight gs b f y').getD i 0 = f.getD i 0 := by
  simp only [bndLeftRight]
  rw [getD_set_ne _ _ _ _ h2, getD_set_ne _ _ _ _ h1]

theorem bndTopBottom_length (gs b : ℕ) (f : List ℚ) (x' : ℕ) :
    (bndTopBottom gs b f x').length = f.length := by
  simp only [bndTopBottom]
  rw [List.length_set, List.length_set]

theorem bndLeftRight_length (gs b : ℕ) (f : List ℚ) (y' : ℕ) :
    (bndLeftRight gs b f y').length = f.length := by
  simp only [bndLeftRight]
  rw [List.length_set, List.length_set]

theorem setBnd_length (gs b : ℕ) (f : List ℚ) :
    (setBoundaryConditions gs b f).length = f.length := by
  simp only [setBoundaryConditions]
  rw [List.length_set, List.length_set, List.length_set, List.length_set]
  have hTB := foldl_invariant (bndTopBottom gs b) (List.range' 1 (gs - 2)) f
    (fun acc => acc.length = f.length) rfl
    (by
      intro acc c _ h
      show (bndTopBottom gs b acc c).length = f.length
      rw [bndTopBottom_length]
      exact h)
  exact foldl_invariant (bndLeftRight gs b) (List.range' 1 (gs - 2)) _
    (fun acc => acc.length = f.length) hTB
    (by
      intro acc c _ h
      show (bndLeftRight gs b acc c).length = f.length
      rw [bndLeftRight_length]
      exact h)

/-- setBoundaryConditions only writes edge cells of the working region:
any cell that is interior, or outside the working region, is preserved. -/
theorem setBnd_getD_preserved (gs b : ℕ) (f : List ℚ) (x y : ℕ) (hgs : 3 ≤ gs)
    (hx : x ≤ gs + 1) (hy : y ≤ gs + 1)
    (hcond : (1 ≤ x ∧ x ≤ gs - 2 ∧ 1 ≤ y ∧ y ≤ gs - 2) ∨ (gs ≤ x ∨ gs ≤ y)) :
    (setBoundaryConditions gs b f).getD (getGridIndex gs (x : ℤ) (y : ℤ)) 0
      = f.getD (getGridIndex gs (x : ℤ) (y : ℤ)) 0 := by
  have hne : ∀ a c : ℤ, 0 ≤ a → a ≤ (gs : ℤ) - 1 → 0 ≤ c → c ≤ (gs : ℤ) - 1 →
      (a = 0 ∨ a = (gs : ℤ) - 1 ∨ c = 0 ∨ c = (gs : ℤ) - 1) →
      getGridIndex gs a c ≠ getGridIndex gs (x : ℤ) (y : ℤ) := by
    intro a c h1 h2 h3 h4 h5
    apply getGridIndex_ne' gs a c x y h1 (by omega) h3 (by omega) hx hy
    omega
  simp only [setBoundaryConditions]
  rw [getD_set_ne _ _ _ _ (hne _ _ (by omega) (by omega) (by omega) (by omega) (by omega)),
    getD_set_ne _ _ _ _ (hne _ _ (by omega) (by omega) (by omega) (by omega) (by omega)),
    getD_set_ne _ _ _ _ (hne _ _ (by omega) (by omega) (by omega) (by omega) (by omega)),
    getD_set_ne _ _ _ _ (hne _ _ (by omega) (by omega) (by omega) (by omega) (by omega))]
  have hTB := foldl_invariant (bndTopBottom gs b) (List.range' 1 (gs - 2)) f
    (fun acc => acc.getD (getGridIndex gs (x : ℤ) (y : ℤ)) 0
      = f.getD (getGridIndex gs (x : ℤ) (y : ℤ)) 0) rfl
    (by
      intro acc c hc h
      rw [List.mem_range'_1] at hc
      show (bndTopBottom gs b acc c).getD (getGridIndex gs (x : ℤ) (y : ℤ)) 0
        = f.getD (getGridIndex gs (x : ℤ) (y : ℤ)) 0
      rw [bndTopBottom_getD_ne gs b acc c _
        (hne _ _ (by omega) (by omega) (by omega) (by omega) (by omega))
        (hne _ _ (by omega) (by omega) (by omega) (by omega) (by omega))]
      exact h)
  exact foldl_invariant (bndLeftRight gs b) (List.range' 1 (gs - 2)) _
    (fun acc => acc.getD (getGridIndex gs (x : ℤ) (y : ℤ)) 0
      = f.getD (getGridIndex gs (x : ℤ) (y : ℤ)) 0) hTB
    (by
      intro acc c hc h
      rw [List.mem_range'_1] at hc
      show (bndLeftRight gs b acc c).getD (getGridIndex gs (x : ℤ) (y : ℤ)) 0
        = f.getD (getGridIndex gs (x : ℤ) (y : ℤ)) 0
      rw [bndLeftRight_getD_ne gs b acc c _
        (hne _ _ (by omega) (by omega) (by omega) (by omega) (by omega))
        (hne _ _ (by omega) (by omega) (by omega) (by omega) (by omega))]
      exact h)

theorem getGridIndex_lt' (gs : ℕ) (a b : ℤ) (ha0 : 0 ≤ a) (ha1 : a ≤ (gs : ℤ) + 1)
    (hb0 : 0 ≤ b) (hb1 : b ≤ (gs : ℤ) + 1) : getGridIndex gs a b < (gs + 2) ^ 2 := by
  rw [show a = ((a.toNat : ℕ) : ℤ) from (Int.toNat_of_nonneg ha0).symm,
    show b = ((b.toNat : ℕ) : ℤ) from (Int.toNat_of_nonneg hb0).symm]
  exact getGridIndex_lt gs _ _ (by omega) (by omega)

/-- A splitting of the edge loop range around a chosen row y. -/
theorem range'_split_at (y n : ℕ) (h1 : 1 ≤ y) (h2 : y ≤ n) :
    List.range' 1 n = List.range' 1 (y - 1) ++ y :: List.range' (y + 1) (n - y) := by
  have e1 : List.range' 1 (y - 1) ++ List.range' y ((n - y) + 1) = List.range' 1 n := by
    have := List.range'_append 1 (y - 1) ((n - y) + 1) 1
    rw [show 1 + 1 * (y - 1) = y by omega] at this
    rw [show (n - y) + 1 + (y - 1) = n by omega] at this
    exact this
  have e2 : List.range' y ((n - y) + 1) = y :: List.range' (y + 1) (n - y) := by
    rw [List.range'_succ]
  rw [← e1, e2]

/-- The value that setBoundaryConditions leaves in the left halo cell of an
interior row: the interior neighbor, negated exactly for boundaryType 1. -/
theorem setBnd_left (gs b : ℕ) (f : List ℚ) (y : ℕ) (hgs : 3 ≤ gs) (hy1 : 1 ≤ y)
    (hy2 : y ≤ gs - 2) (hlen : f.length = (gs + 2) ^ 2) :
    (setBoundaryConditions gs b f).getD (getGridIndex gs 0 (y : ℤ)) 0
      = if b = 1 then -(f.getD (getGridIndex gs 1 (y : ℤ)) 0)
        else f.getD (getGridIndex gs 1 (y : ℤ)) 0 := by
  have hne : ∀ a c : ℤ, 0 ≤ a → a ≤ (gs : ℤ) + 1 → 0 ≤ c → c ≤ (gs : ℤ) + 1 →
      (a ≠ 0 ∨ c ≠ (y : ℤ)) → getGridIndex gs a c ≠ getGridIndex gs 0 (y : ℤ) := by
    intro a c h1 h2 h3 h4 h5
    rw [show (0 : ℤ) = (((0 : ℕ) : ℕ) : ℤ) by norm_num]
    apply getGridIndex_ne' gs a c 0 y h1 h2 h3 h4 (by omega) (by omega)
    push_cast
    exact h5
  simp only [setBoundaryConditions]
  rw [getD_set_ne _ _ _ _ (hne _ _ (by omega) (by omega) (by omega) (by omega) (by omega)),
    getD_set_ne _ _ _ _ (hne _ _ (by omega) (by omega) (by omega) (by omega) (by omega)),
    getD_set_ne _ _ _ _ (hne _ _ (by omega) (by omega) (by omega) (by omega) (by omega)),
    getD_set_ne _ _ _ _ (hne _ _ (by omega) (by omega) (by omega) (by omega) (by omega))]
  have hTB := foldl_invariant (bndTopBottom gs b) (List.range' 1 (gs - 2)) f
    (fun acc => acc.getD (getGridIndex gs 0 (y : ℤ)) 0 = f.getD (getGridIndex gs 0 (y : ℤ)) 0
      ∧ acc.getD (getGridIndex gs 1 (y : ℤ)) 0 = f.getD (getGridIndex gs 1 (y : ℤ)) 0
      ∧ acc.length = f.length) ⟨rfl, rfl, rfl⟩
    (by
      intro acc c hc h
      rw [List.mem_range'_1] at hc
      have hw : ∀ j, getGridIndex gs (c : ℤ) 0 ≠ j → getGridIndex gs (c : ℤ) ((gs : ℤ) - 1) ≠ j →
          (bndTopBottom gs b acc c).getD j 0 = acc.getD j 0 :=
        fun j u1 u2 => bndTopBottom_getD_ne gs b acc c j u1 u2
      refine ⟨?_, ?_, ?_⟩
      · rw [hw _ (hne _ _ (by omega) (by omega) (by omega) (by omega) (by omega))
          (hne _ _ (by omega) (by omega) (by omega) (by omega) (by omega))]
        exact h.1
      · have hne1 : ∀ a c : ℤ, 0 ≤ a → a ≤ (gs : ℤ) + 1 → 0 ≤ c → c ≤ (gs : ℤ) + 1 →
            (a ≠ 1 ∨ c ≠ (y : ℤ)) → getGridIndex gs a c ≠ getGridIndex gs 1 (y : ℤ) := by
          intro a c h1 h2 h3 h4 h5
          rw [show (1 : ℤ) = (((1 : ℕ) : ℕ) : ℤ) by norm_num]
          apply getGridIndex_ne' gs a c 1 y h1 h2 h3 h4 (by omega) (by omega)
          push_cast
          exact h5
        rw [hw _ (hne1 _ _ (by omega) (by omega) (by omega) (by omega) (by omega))
          (hne1 _ _ (by omega) (by omega) (by omega) (by omega) (by omega))]
        exact h.2.1
      · rw [bndTopBottom_length]
        exact h.2.2)
  nth_rewrite 2 [range'_split_at y (gs - 2) hy1 hy2]
  rw [List.foldl_append, List.foldl_cons]
  set f1 := (List.range' 1 (gs - 2)).foldl (bndTopBottom gs b) f with hf1
  have hPre := foldl_invariant (bndLeftRight gs b) (List.range' 1 (y - 1)) f1
    (fun acc => acc.getD (getGridIndex gs 0 (y : ℤ)) 0 = f.getD (getGridIndex gs 0 (y : ℤ)) 0
      ∧ acc.getD (getGridIndex gs 1 (y : ℤ)) 0 = f.getD (getGridIndex gs 1 (y : ℤ)) 0
      ∧ acc.length = f.length) ⟨hTB.1, hTB.2.1, hTB.2.2⟩
    (by
      intro acc c hc h
      rw [List.mem_range'_1] at hc
      have hw : ∀ j, getGridIndex gs 0 (c : ℤ) ≠ j → getGridIndex gs ((gs : ℤ) - 1) (c : ℤ) ≠ j →
          (bndLeftRight gs b acc c).getD j 0 = acc.getD j 0 :=
        fun j u1 u2 => bndLeftRight_getD_ne gs b acc c j u1 u2
      have hne1 : ∀ a d : ℤ, 0 ≤ a → a ≤ (gs : ℤ) + 1 → 0 ≤ d → d ≤ (gs : ℤ) + 1 →
          (a ≠ 1 ∨ d ≠ (y : ℤ)) → getGridIndex gs a d ≠ getGridIndex gs 1 (y : ℤ) := by
        intro a d h1 h2 h3 h4 h5
        rw [show (1 : ℤ) = (((1 : ℕ) : ℕ) : ℤ) by norm_num]
        apply getGridIndex_ne' gs a d 1 y h1 h2 h3 h4 (by omega) (by omega)
        push_cast
        exact h5
      refine ⟨?_, ?_, ?_⟩
      · rw [hw _ (hne _ _ (by omega) (by omega) (by omega) (by omega) (by omega))
          (hne _ _ (by omega) (by omega) (by omega) (by omega) (by omega))]
        exact h.1
      · rw [hw _ (hne1 _ _ (by omega) (by omega) (by omega) (by omega) (by omega))
          (hne1 _ _ (by omega) (by omega) (by omega) (by omega) (by omega))]
        exact h.2.1
      · rw [bndLeftRight_length]
        exact h.2.2)
  set f2 := (List.range' 1 (y - 1)).foldl (bndLeftRight gs b) f1 with hf2
  have hStep : (bndLeftRight gs b f2 y).getD (getGridIndex gs 0 (y : ℤ)) 0
      = if b = 1 then -(f.getD (getGridIndex gs 1 (y : ℤ)) 0)
        else f.getD (getGridIndex gs 1 (y : ℤ)) 0 := by
    simp only [bndLeftRight]
    rw [getD_set_ne _ _ _ _ (hne _ _ (by omega) (by omega) (by omega) (by omega)
      (by left; omega))]
    rw [getD_set_self _ _ _ (by
      rw [hPre.2.2, hlen]
      exact getGridIndex_lt' gs 0 (y : ℤ) (by omega) (by omega) (by omega) (by omega))]
    rw [hPre.2.1]
  have hKeep := foldl_invariant (bndLeftRight gs b) (List.range' (y + 1) (gs - 2 - y))
    (bndLeftRight gs b f2 y)
    (fun acc => acc.getD (getGridIndex gs 0 (y : ℤ)) 0
      = if b = 1 then -(f.getD (getGridIndex gs 1 (y : ℤ)) 0)
        else f.getD (getGridIndex gs 1 (y : ℤ)) 0) hStep
    (by
      intro acc c hc h
      rw [List.mem_range'_1] at hc
      have hw : ∀ j, getGridIndex gs 0 (c : ℤ) ≠ j → getGridIndex gs ((gs : ℤ) - 1) (c : ℤ) ≠ j →
          (bndLeftRight gs b acc c).getD j 0 = acc.getD j 0 :=
        fun j u1 u2 => bndLeftRight_getD_ne gs b acc c j u1 u2
      rw [hw _ (hne _ _ (by omega) (by omega) (by omega) (by omega) (by right; omega))
        (hne _ _ (by omega) (by omega) (by omega) (by omega) (by left; omega))]
      exact h)
  exact hKeep

/-- The value that setBoundaryConditions leaves in the right halo cell of an
interior row: the interior neighbor, negated exactly for boundaryType 1. -/
theorem setBnd_right (gs b : ℕ) (f : List ℚ) (y : ℕ) (hgs : 3 ≤ gs) (hy1 : 1 ≤ y)
    (hy2 : y ≤ gs - 2) (hlen : f.length = (gs + 2) ^ 2) :
    (setBoundaryConditions gs b f).getD (getGridIndex gs ((gs : ℤ) - 1) (y : ℤ)) 0
      = if b = 1 then -(f.getD (getGridIndex gs ((gs : ℤ) - 2) (y : ℤ)) 0)
        else f.getD (getGridIndex gs ((gs : ℤ) - 2) (y : ℤ)) 0 := by
  have hgen : ∀ u : ℕ, u ≤ gs + 1 → ∀ a c : ℤ, 0 ≤ a → a ≤ (gs : ℤ) + 1 → 0 ≤ c →
      c ≤ (gs : ℤ) + 1 → (a ≠ (u : ℤ) ∨ c ≠ (y : ℤ)) →
      getGridIndex gs a c ≠ getGridIndex gs (u : ℤ) (y : ℤ) := by
    intro u hu a c h1 h2 h3 h4 h5
    apply getGridIndex_ne' gs a c u y h1 h2 h3 h4 hu (by omega)
    exact h5
  have hne : ∀ a c : ℤ, 0 ≤ a → a ≤ (gs : ℤ) + 1 → 0 ≤ c → c ≤ (gs : ℤ) + 1 →
      (a ≠ (gs : ℤ) - 1 ∨ c ≠ (y : ℤ)) →
      getGridIndex gs a c ≠ getGridIndex gs ((gs : ℤ) - 1) (y : ℤ) := by
    intro a c h1 h2 h3 h4 h5
    rw [show ((gs : ℤ) - 1) = ((gs - 1 : ℕ) : ℤ) by omega]
    apply hgen (gs - 1) (by omega) a c h1 h2 h3 h4
    omega
  have hne2 : ∀ a c : ℤ, 0 ≤ a → a ≤ (gs : ℤ) + 1 → 0 ≤ c → c ≤ (gs : ℤ) + 1 →
      (a ≠ (gs : ℤ) - 2 ∨ c ≠ (y : ℤ)) →
      getGridIndex gs a c ≠ getGridIndex gs ((gs : ℤ) - 2) (y : ℤ) := by
    intro a c h1 h2 h3 h4 h5
    rw [show ((gs : ℤ) - 2) = ((gs - 2 : ℕ) : ℤ) by omega]
    apply hgen (gs - 2) (by omega) a c h1 h2 h3 h4
    omega
  simp only [setBoundaryConditions]
  rw [getD_set_ne _ _ _ _ (hne _ _ (by omega) (by omega) (by omega) (by omega)
      (by right; omega)),
    getD_set_ne _ _ _ _ (hne _ _ (by omega) (by omega) (by omega) (by omega)
      (by right; omega)),
    getD_set_ne _ _ _ _ (hne _ _ (by omega) (by omega) (by omega) (by omega)
      (by left; omega)),
    getD_set_ne _ _ _ _ (hne _ _ (by omega) (by omega) (by omega) (by omega)
      (by left; omega))]
  have hTB := foldl_invariant (bndTopBottom gs b) (List.range' 1 (gs - 2)) f
    (fun acc => acc.getD (getGridIndex gs ((gs : ℤ) - 1) (y : ℤ)) 0
        = f.getD (getGridIndex gs ((gs : ℤ) - 1) (y : ℤ)) 0
      ∧ acc.getD (getGridIndex gs ((gs : ℤ) - 2) (y : ℤ)) 0
        = f.getD (getGridIndex gs ((gs : ℤ) - 2) (y : ℤ)) 0
      ∧ acc.length = f.length) ⟨rfl, rfl, rfl⟩
    (by
      intro acc c hc h
      rw [List.mem_range'_1] at hc
      have hw : ∀ j, getGridIndex gs (c : ℤ) 0 ≠ j → getGridIndex gs (c : ℤ) ((gs : ℤ) - 1) ≠ j →
          (bndTopBottom gs b acc c).getD j 0 = acc.getD j 0 :=
        fun j u1 u2 => bndTopBottom_getD_ne gs b acc c j u1 u2
      refine ⟨?_, ?_, ?_⟩
      · rw [hw _ (hne _ _ (by omega) (by omega) (by omega) (by omega) (by right; omega))
          (hne _ _ (by omega) (by omega) (by omega) (by omega) (by right; omega))]
        exact h.1
      · rw [hw _ (hne2 _ _ (by omega) (by omega) (by omega) (by omega) (by right; omega))
          (hne2 _ _ (by omega) (by omega) (by omega) (by omega) (by right; omega))]
        exact h.2.1
      · rw [bndTopBottom_length]
        exact h.2.2)
  nth_rewrite 2 [range'_split_at y (gs - 2) hy1 hy2]
  rw [List.foldl_append, List.foldl_cons]
  set f1 := (List.range' 1 (gs - 2)).foldl (bndTopBottom gs b) f with hf1
  have hPre := foldl_invariant (bndLeftRight gs b) (List.range' 1 (y - 1)) f1
    (fun acc => acc.getD (getGridIndex gs ((gs : ℤ) - 1) (y : ℤ)) 0
        = f.getD (getGridIndex gs ((gs : ℤ) - 1) (y : ℤ)) 0
      ∧ acc.getD (getGridIndex gs ((gs : ℤ) - 2) (y : ℤ)) 0
        = f.getD (getGridIndex gs ((gs : ℤ) - 2) (y : ℤ)) 0
      ∧ acc.length = f.length) ⟨hTB.1, hTB.2.1, hTB.2.2⟩
    (by
      intro acc c hc h
      rw [List.mem_range'_1] at hc
      have hw : ∀ j, getGridIndex gs 0 (c : ℤ) ≠ j → getGridIndex gs ((gs : ℤ) - 1) (c : ℤ) ≠ j →
          (bndLeftRight gs b acc c).getD j 0 = acc.getD j 0 :=
        fun j u1 u2 => bndLeftRight_getD_ne gs b acc c j u1 u2
      refine ⟨?_, ?_, ?_⟩
      · rw [hw _ (hne _ _ (by omega) (by omega) (by omega) (by omega) (by left; omega))
          (hne _ _ (by omega) (by omega) (by omega) (by omega) (by right; omega))]
        exact h.1
      · rw [hw _ (hne2 _ _ (by omega) (by omega) (by omega) (by omega) (by left; omega))
          (hne2 _ _ (by omega) (by omega) (by omega) (by omega) (by left; omega))]
        exact h.2.1
      · rw [bndLeftRight_length]
        exact h.2.2)
  set f2 := (List.range' 1 (y - 1)).foldl (bndLeftRight gs b) f1 with hf2
  have hStep : (bndLeftRight gs b f2 y).getD (getGridIndex gs ((gs : ℤ) - 1) (y : ℤ)) 0
      = if b = 1 then -(f.getD (getGridIndex gs ((gs : ℤ) - 2) (y : ℤ)) 0)
        else f.getD (getGridIndex gs ((gs : ℤ) - 2) (y : ℤ)) 0 := by
    simp only [bndLeftRight]
    rw [getD_set_self _ _ _ (by
      rw [List.length_set, hPre.2.2, hlen]
      exact getGridIndex_lt' gs ((gs : ℤ) - 1) (y : ℤ) (by omega) (by omega) (by omega)
        (by omega))]
    rw [getD_set_ne _ _ _ _ (hne2 _ _ (by omega) (by omega) (by omega) (by omega)
      (by left; omega))]
    rw [hPre.2.1]
  have hKeep := foldl_invariant (bndLeftRight gs b) (List.range' (y + 1) (gs - 2 - y))
    (bndLeftRight gs b f2 y)
    (fun acc => acc.getD (getGridIndex gs ((gs : ℤ) - 1) (y : ℤ)) 0
      = if b = 1 then -(f.getD (getGridIndex gs ((gs : ℤ) - 2) (y : ℤ)) 0)
        else f.getD (getGridIndex gs ((gs : ℤ) - 2) (y : ℤ)) 0) hStep
    (by
      intro acc c hc h
      rw [List.mem_range'_1] at hc
      have hw : ∀ j, getGridIndex gs 0 (c : ℤ) ≠ j → getGridIndex gs ((gs : ℤ) - 1) (c : ℤ) ≠ j →
          (bndLeftRight gs b acc c).getD j 0 = acc.getD j 0 :=
        fun j u1 u2 => bndLeftRight_getD_ne gs b acc c j u1 u2
      rw [hw _ (hne _ _ (by omega) (by omega) (by omega) (by omega) (by left; omega))
        (hne _ _ (by omega) (by omega) (by omega) (by omega) (by right; omega))]
      exact h)
  exact hKeep

/-! ### Claim C4: boundary symmetry -/

/-- Claim C4: after setBoundaryConditions with the horizontal-velocity kind
(boundaryType 1), every interior edge row y has f[0,y] = -f[1,y] at the left
wall and f[N+1,y] = -f[N,y] at the right wall, where N = GRID_SIZE - 2 is
the logical resolution, so columns N and N+1 are GRID_SIZE-2 and GRID_SIZE-1;
with the scalar kind (boundaryType 0) the halo copies without negation. -/
theorem c4_boundary_symmetry (gs : ℕ) (f : List ℚ) (y : ℕ) (hgs : 3 ≤ gs) (hy1 : 1 ≤ y)
    (hy2 : y ≤ gs - 2) (hlen : f.length = (gs + 2) ^ 2) :
    (setBoundaryConditions gs 1 f).getD (getGridIndex gs 0 (y : ℤ)) 0
      = -((setBoundaryConditions gs 1 f).getD (getGridIndex gs 1 (y : ℤ)) 0)
    ∧ (setBoundaryConditions gs 1 f).getD (getGridIndex gs ((gs : ℤ) - 1) (y : ℤ)) 0
      = -((setBoundaryConditions gs 1 f).getD (getGridIndex gs ((gs : ℤ) - 2) (y : ℤ)) 0)
    ∧ (setBoundaryConditions gs 0 f).getD (getGridIndex gs 0 (y : ℤ)) 0
      = (setBoundaryConditions gs 0 f).getD (getGridIndex gs 1 (y : ℤ)) 0 := by
  have h1 : (1 : ℤ) = ((1 : ℕ) : ℤ) := by norm_num
  have hint1 : (setBoundaryConditions gs 1 f).getD (getGridIndex gs 1 (y : ℤ)) 0
      = f.getD (getGridIndex gs 1 (y : ℤ)) 0 := by
    rw [h1]
    exact setBnd_getD_preserved gs 1 f 1 y hgs (by omega) (by omega) (by omega)
  have hint0 : (setBoundaryConditions gs 0 f).getD (getGridIndex gs 1 (y : ℤ)) 0
      = f.getD (getGridIndex gs 1 (y : ℤ)) 0 := by
    rw [h1]
    exact setBnd_getD_preserved gs 0 f 1 y hgs (by omega) (by omega) (by omega)
  have hg2 : ((gs : ℤ) - 2) = ((gs - 2 : ℕ) : ℤ) := by omega
  have hint2 : (setBoundaryConditions gs 1 f).getD (getGridIndex gs ((gs : ℤ) - 2) (y : ℤ)) 0
      = f.getD (getGridIndex gs ((gs : ℤ) - 2) (y : ℤ)) 0 := by
    rw [hg2]
    exact setBnd_getD_preserved gs 1 f (gs - 2) y hgs (by omega) (by omega) (by omega)
  refine ⟨?_, ?_, ?_⟩
  · rw [hint1, setBnd_left gs 1 f y hgs hy1 hy2 hlen]
    simp
  · rw [hint2, setBnd_right gs 1 f y hgs hy1 hy2 hlen]
    simp
  · rw [hint0, setBnd_left gs 0 f y hgs hy1 hy2 hlen]
    simp

theorem c4_boundary_symmetry_witness :
    ((setBoundaryConditions 3 1 ((List.replicate 25 (0 : ℚ)).set 6 2)).getD
        (getGridIndex 3 0 1) 0
      = -((setBoundaryConditions 3 1 ((List.replicate 25 (0 : ℚ)).set 6 2)).getD
        (getGridIndex 3 1 1) 0)) ∧
    ((setBoundaryConditions 3 0 ((List.replicate 25 (0 : ℚ)).set 6 2)).getD
        (getGridIndex 3 0 1) 0
      = (setBoundaryConditions 3 0 ((List.replicate 25 (0 : ℚ)).set 6 2)).getD
        (getGridIndex 3 1 1) 0) := by
  have h := c4_boundary_symmetry 3 ((List.replicate 25 (0 : ℚ)).set 6 2) 1
    (by norm_num) (by norm_num) (by norm_num) (by decide)
  exact ⟨h.1, h.2.2⟩

/-! ### Claim C5: index clamping and injectivity -/

/-- Claim C5: getGridIndex clamps x and y independently into [0, GRID_SIZE+1]
(so out-of-range arguments give the same offset as the nearest clamped
coordinate), returns x + (GRID_SIZE+2) * y for in-range arguments, and is
injective on in-range pairs. It is a total function: no error is possible. -/
theorem c5_index_clamping (gs : ℕ) (x y x2 y2 : ℤ) :
    getGridIndex gs x y
      = getGridIndex gs (zconstrain x 0 ((gs : ℤ) + 1)) (zconstrain y 0 ((gs : ℤ) + 1))
    ∧ (0 ≤ x → x ≤ (gs : ℤ) + 1 → 0 ≤ y → y ≤ (gs : ℤ) + 1 →
        getGridIndex gs x y = (x + ((gs : ℤ) + 2) * y).toNat)
    ∧ (0 ≤ x → x ≤ (gs : ℤ) + 1 → 0 ≤ y → y ≤ (gs : ℤ) + 1 →
       0 ≤ x2 → x2 ≤ (gs : ℤ) + 1 → 0 ≤ y2 → y2 ≤ (gs : ℤ) + 1 →
       getGridIndex gs x y = getGridIndex gs x2 y2 → x = x2 ∧ y = y2) := by
  refine ⟨?_, ?_, ?_⟩
  · unfold getGridIndex
    have e1 : zconstrain (zconstrain x 0 ((gs : ℤ) + 1)) 0 ((gs : ℤ) + 1)
        = zconstrain x 0 ((gs : ℤ) + 1) := by
      unfold zconstrain
      omega
    have e2 : zconstrain (zconstrain y 0 ((gs : ℤ) + 1)) 0 ((gs : ℤ) + 1)
        = zconstrain y 0 ((gs : ℤ) + 1) := by
      unfold zconstrain
      omega
    rw [e1, e2]
  · intro h1 h2 h3 h4
    unfold getGridIndex zconstrain
    rw [min_eq_left h2, max_eq_left h1, min_eq_left h4, max_eq_left h3]
  · intro h1 h2 h3 h4 h5 h6 h7 h8 heq
    rw [show x = ((x.toNat : ℕ) : ℤ) from (Int.toNat_of_nonneg h1).symm,
      show y = ((y.toNat : ℕ) : ℤ) from (Int.toNat_of_nonneg h3).symm,
      show x2 = ((x2.toNat : ℕ) : ℤ) from (Int.toNat_of_nonneg h5).symm,
      show y2 = ((y2.toNat : ℕ) : ℤ) from (Int.toNat_of_nonneg h7).symm] at heq
    have := getGridIndex_inj gs x.toNat y.toNat x2.toNat y2.toNat
      (by omega) (by omega) (by omega) (by omega) heq
    omega

theorem c5_index_clamping_witness :
    getGridIndex 4 (-7) 99 = getGridIndex 4 (zconstrain (-7) 0 5) (zconstrain 99 0 5)
    ∧ getGridIndex 4 3 2 = ((3 : ℤ) + 6 * 2).toNat
    ∧ ((3 : ℤ) = 3 ∧ (2 : ℤ) = 2) := by
  refine ⟨(c5_index_clamping 4 (-7) 99 0 0).1, ?_, ?_⟩
  · exact (c5_index_clamping 4 3 2 0 0).2.1 (by norm_num) (by norm_num) (by norm_num)
      (by norm_num)
  · exact (c5_index_clamping 4 3 2 3 2).2.2 (by norm_num) (by norm_num) (by norm_num)
      (by norm_num) (by norm_num) (by norm_num) (by norm_num) (by norm_num) rfl

/-! ### Sweep lemmas for the linear solver -/

theorem linStep_length (gs : ℕ) (a c : ℚ) (source t : List ℚ) (p : ℕ × ℕ) :
    (linStep gs a c source t p).length = t.length := by
  simp only [linStep]
  rw [List.length_set]

theorem linSweep_length (gs : ℕ) (a c : ℚ) (source t : List ℚ) :
    (linSweep gs a c source t).length = t.length := by
  exact foldl_invariant (linStep gs a c source) (interiorCells gs) t
    (fun acc => acc.length = t.length) rfl
    (by
      intro acc p _ h
      show (linStep gs a c source acc p).length = t.length
      rw [linStep_length]
      exact h)

theorem iterate_sbs_length (gs b : ℕ) (source : List ℚ) (a c : ℚ) (k : ℕ) (t : List ℚ) :
    ((fun u => setBoundaryConditions gs b (linSweep gs a c source u))^[k] t).length
      = t.length := by
  induction k generalizing t with
  | zero => rfl
  | succ n ih =>
    rw [Function.iterate_succ_apply, ih, setBnd_length, linSweep_length]

theorem solveLin_length (gs iters : ℕ) (b : ℕ) (target source : List ℚ) (a c : ℚ) :
    (solveLinearSystem gs iters b target source a c).length = target.length := by
  unfold solveLinearSystem
  exact iterate_sbs_length gs b source a c iters target

theorem linSweep_getD_notInterior (gs : ℕ) (a c : ℚ) (source t : List ℚ) (x y : ℕ)
    (hx : x ≤ gs + 1) (hy : y ≤ gs + 1)
    (hout : x < 1 ∨ gs - 2 < x ∨ y < 1 ∨ gs - 2 < y) :
    (linSweep gs a c source t).getD (getGridIndex gs (x : ℤ) (y : ℤ)) 0
      = t.getD (getGridIndex gs (x : ℤ) (y : ℤ)) 0 := by
  exact foldl_invariant (linStep gs a c source) (interiorCells gs) t
    (fun acc => acc.getD (getGridIndex gs (x : ℤ) (y : ℤ)) 0
      = t.getD (getGridIndex gs (x : ℤ) (y : ℤ)) 0) rfl
    (by
      intro acc p hp h
      rw [mem_interiorCells] at hp
      show (linStep gs a c source acc p).getD (getGridIndex gs (x : ℤ) (y : ℤ)) 0
        = t.getD (getGridIndex gs (x : ℤ) (y : ℤ)) 0
      simp only [linStep]
      rw [getD_set_ne _ _ _ _ (getGridIndex_ne gs p.1 p.2 x y (by omega) (by omega) hx hy
        (by omega))]
      exact h)

theorem linSweep_zero (gs : ℕ) (source t : List ℚ) :
    linSweep gs 0 1 source t = (interiorCells gs).foldl
      (fun acc p => acc.set (getGridIndex gs (p.1 : ℤ) (p.2 : ℤ))
        (source.getD (getGridIndex gs (p.1 : ℤ) (p.2 : ℤ)) 0)) t := by
  unfold linSweep
  apply List.foldl_ext
  intro acc p _
  simp only [linStep]
  rw [zero_mul, add_zero, one_div_one, mul_one]

theorem solveLin_zero_one_interior (gs iters : ℕ) (b : ℕ) (target source : List ℚ)
    (x y : ℕ) (hgs : 3 ≤ gs) (hit : 1 ≤ iters) (hlen : target.length = (gs + 2) ^ 2)
    (hx1 : 1 ≤ x) (hx2 : x ≤ gs - 2) (hy1 : 1 ≤ y) (hy2 : y ≤ gs - 2) :
    (solveLinearSystem gs iters b target source 0 1).getD
        (getGridIndex gs (x : ℤ) (y : ℤ)) 0
      = source.getD (getGridIndex gs (x : ℤ) (y : ℤ)) 0 := by
  obtain ⟨k, rfl⟩ : ∃ k, iters = k + 1 := ⟨iters - 1, by omega⟩
  unfold solveLinearSystem
  rw [Function.iterate_succ_apply']
  rw [setBnd_getD_preserved gs b _ x y hgs (by omega) (by omega) (Or.inl ⟨hx1, hx2, hy1, hy2⟩)]
  rw [linSweep_zero]
  refine foldl_set_getD _ (fun p : ℕ × ℕ => getGridIndex gs (p.1 : ℤ) (p.2 : ℤ))
    (fun p => source.getD (getGridIndex gs (p.1 : ℤ) (p.2 : ℤ)) 0)
    (fun acc b => rfl) (interiorCells gs) (x, y) _ _
    ((mem_interiorCells gs x y).mpr ⟨hx1, hx2, hy1, hy2⟩) rfl rfl
    (fun p _ e => ?_) _
    (by
      rw [iterate_sbs_length, hlen]
      exact getGridIndex_lt gs x y (by omega) (by omega))
  show source.getD (getGridIndex gs (p.1 : ℤ) (p.2 : ℤ)) 0
    = source.getD (getGridIndex gs (x : ℤ) (y : ℤ)) 0
  rw [show getGridIndex gs (p.1 : ℤ) (p.2 : ℤ)
    = getGridIndex gs (x : ℤ) (y : ℤ) from e]

theorem solveLin_getD_outer (gs iters : ℕ) (b : ℕ) (target source : List ℚ) (a c : ℚ)
    (x y : ℕ) (hgs : 3 ≤ gs) (hx : x ≤ gs + 1) (hy : y ≤ gs + 1) (hout : gs ≤ x ∨ gs ≤ y) :
    (solveLinearSystem gs iters b target source a c).getD
        (getGridIndex gs (x : ℤ) (y : ℤ)) 0
      = target.getD (getGridIndex gs (x : ℤ) (y : ℤ)) 0 := by
  unfold solveLinearSystem
  induction iters with
  | zero => rfl
  | succ k ih =>
    rw [Function.iterate_succ_apply']
    rw [setBnd_getD_preserved gs b _ x y hgs hx hy (Or.inr hout),
      linSweep_getD_notInterior gs a c source _ x y hx hy (by omega)]
    exact ih

/-! ### Claim C7: rate-zero diffusion is a copy -/

theorem diffuseField_zero_rate (gs iters : ℕ) (dt : ℚ) (b : ℕ) (target source : List ℚ) :
    diffuseField gs iters dt b target source 0
      = solveLinearSystem gs iters b target source 0 1 := by
  have ha : dt * 0 * ((gs : ℚ) - 2) * ((gs : ℚ) - 2) = 0 := by ring
  unfold diffuseField
  rw [ha]
  norm_num

/-- Claim C7: diffusing any field with rate 0 leaves every interior cell
equal to the source (the pass degenerates to a copy), while boundary
enforcement rewrites only halo/edge cells of the working region; every cell
outside the working region keeps its old target value. -/
theorem c7_diffuse_rate_zero (gs iters : ℕ) (dt : ℚ) (b : ℕ) (target source : List ℚ)
    (x y : ℕ) (hgs : 3 ≤ gs) (hit : 1 ≤ iters) (hlen : target.length = (gs + 2) ^ 2) :
    (1 ≤ x → x ≤ gs - 2 → 1 ≤ y → y ≤ gs - 2 →
      (diffuseField gs iters dt b target source 0).getD (getGridIndex gs (x : ℤ) (y : ℤ)) 0
        = source.getD (getGridIndex gs (x : ℤ) (y : ℤ)) 0)
    ∧ (x ≤ gs + 1 → y ≤ gs + 1 → (gs ≤ x ∨ gs ≤ y) →
      (diffuseField gs iters dt b target source 0).getD (getGridIndex gs (x : ℤ) (y : ℤ)) 0
        = target.getD (getGridIndex gs (x : ℤ) (y : ℤ)) 0) := by
  rw [diffuseField_zero_rate]
  constructor
  · intro h1 h2 h3 h4
    exact solveLin_zero_one_interior gs iters b target source x y hgs hit hlen h1 h2 h3 h4
  · intro h1 h2 h3
    exact solveLin_getD_outer gs iters b target source 0 1 x y hgs h1 h2 h3

theorem c7_diffuse_rate_zero_witness :
    ((diffuseField 3 1 5 0 ((List.replicate 25 (0 : ℚ)).set 8 4)
        ((List.replicate 25 (0 : ℚ)).set 6 7) 0).getD (getGridIndex 3 1 1) 0
      = ((List.replicate 25 (0 : ℚ)).set 6 7).getD (getGridIndex 3 1 1) 0)
    ∧ ((diffuseField 3 1 5 0 ((List.replicate 25 (0 : ℚ)).set 8 4)
        ((List.replicate 25 (0 : ℚ)).set 6 7) 0).getD (getGridIndex 3 3 1) 0
      = ((List.replicate 25 (0 : ℚ)).set 8 4).getD (getGridIndex 3 3 1) 0) := by
  constructor
  · exact (c7_diffuse_rate_zero 3 1 5 0 _ _ 1 1 (by norm_num) (by norm_num) (by decide)).1
      (by norm_num) (by norm_num) (by norm_num) (by norm_num)
  · exact (c7_diffuse_rate_zero 3 1 5 0 _ _ 3 1 (by norm_num) (by norm_num) (by decide)).2
      (by norm_num) (by norm_num) (by norm_num)

/-! ### Claim C2: the diffusion solve -/

/-- Follows the claim text for diffusion verbatim, on the same buffer layout
as the source: coefficient a = dt * rate * N * N with N = GRID_SIZE - 2 the
logical resolution, row-major Gauss-Seidel sweeps over the interior with the
update (source + a * sum of the four current neighbor values) / (1 + 4a),
and the boundary policy re-applied after every sweep. -/
def diffuseClaim4 (gs iters : ℕ) (dt : ℚ) (b : ℕ) (target source : List ℚ)
    (rate : ℚ) : List ℚ :=
  (fun t => setBoundaryConditions gs b ((interiorCells gs).foldl
    (fun acc p =>
      acc.set (getGridIndex gs (p.1 : ℤ) (p.2 : ℤ))
        ((source.getD (getGridIndex gs (p.1 : ℤ) (p.2 : ℤ)) 0 +
          (dt * rate * ((gs : ℚ) - 2) * ((gs : ℚ) - 2)) *
          (acc.getD (getGridIndex gs ((p.1 : ℤ) + 1) (p.2 : ℤ)) 0 +
           acc.getD (getGridIndex gs ((p.1 : ℤ) - 1) (p.2 : ℤ)) 0 +
           acc.getD (getGridIndex gs (p.1 : ℤ) ((p.2 : ℤ) + 1)) 0 +
           acc.getD (getGridIndex gs (p.1 : ℤ) ((p.2 : ℤ) - 1)) 0)) /
          (1 + 4 * (dt * rate * ((gs : ℚ) - 2) * ((gs : ℚ) - 2))))) t))^[iters] target

/-- Claim C2 counterexample: on a concrete grid the source solver and the
claimed (1 + 4a) solver produce different interior values, because the code
divides by 1 + 6 * a (the three-dimensional Stam constant), not 1 + 4 * a. -/
theorem c2_counterexample :
    (diffuseField 3 1 1 0 (List.replicate 25 (0 : ℚ))
        ((List.replicate 25 (0 : ℚ)).set 6 1) 1).getD (getGridIndex 3 1 1) 0
      ≠ (diffuseClaim4 3 1 1 0 (List.replicate 25 (0 : ℚ))
        ((List.replicate 25 (0 : ℚ)).set 6 1) 1).getD (getGridIndex 3 1 1) 0 := by
  with_unfolding_all decide

/-- Follows the amended specification text for diffusion, on the same buffer
layout as the source (gs = N + 2 where N is the logical resolution):
a = dt * rate * N * N, row-major Gauss-Seidel sweeps over the interior with
the update (source + a * sum of the four current neighbor values) / (1 + 6a),
and the boundary policy re-applied after every sweep. -/
def diffuseSpec6 (N iters : ℕ) (dt rate : ℚ) (b : ℕ) (target source : List ℚ) : List ℚ :=
  (fun t => setBoundaryConditions (N + 2) b ((interiorCells (N + 2)).foldl
    (fun acc p =>
      acc.set (getGridIndex (N + 2) (p.1 : ℤ) (p.2 : ℤ))
        ((source.getD (getGridIndex (N + 2) (p.1 : ℤ) (p.2 : ℤ)) 0 +
          (dt * rate * (N : ℚ) * (N : ℚ)) *
          (acc.getD (getGridIndex (N + 2) ((p.1 : ℤ) + 1) (p.2 : ℤ)) 0 +
           acc.getD (getGridIndex (N + 2) ((p.1 : ℤ) - 1) (p.2 : ℤ)) 0 +
           acc.getD (getGridIndex (N + 2) (p.1 : ℤ) ((p.2 : ℤ) + 1)) 0 +
           acc.getD (getGridIndex (N + 2) (p.1 : ℤ) ((p.2 : ℤ) - 1)) 0)) /
          (1 + 6 * (dt * rate * (N : ℚ) * (N : ℚ))))) t))^[iters] target

/-- Claim C2 as amended: diffuseField computes a = dt * rate * N * N with
N = GRID_SIZE - 2 the logical resolution and performs row-major Gauss-Seidel
sweeps with the update (source + a * neighbors) / (1 + 6a) -- not (1 + 4a) --
re-applying the boundary policy after every sweep. -/
theorem c2_diffusion_solve (gs iters : ℕ) (dt rate : ℚ) (b : ℕ) (target source : List ℚ)
    (hgs : 3 ≤ gs) :
    diffuseField gs iters dt b target source rate
      = diffuseSpec6 (gs - 2) iters dt rate b target source := by
  have hgseq : gs - 2 + 2 = gs := by omega
  have hcast : ((gs - 2 : ℕ) : ℚ) = (gs : ℚ) - 2 := by
    rw [Nat.cast_sub (by omega)]
    norm_num
  unfold diffuseField solveLinearSystem diffuseSpec6
  rw [hgseq, hcast]
  have hfun : (fun t => setBoundaryConditions gs b
      (linSweep gs (dt * rate * ((gs : ℚ) - 2) * ((gs : ℚ) - 2))
        (1 + 6 * (dt * rate * ((gs : ℚ) - 2) * ((gs : ℚ) - 2))) source t))
      = (fun t => setBoundaryConditions gs b ((interiorCells gs).foldl
        (fun acc p =>
          acc.set (getGridIndex gs (p.1 : ℤ) (p.2 : ℤ))
            ((source.getD (getGridIndex gs (p.1 : ℤ) (p.2 : ℤ)) 0 +
              (dt * rate * ((gs : ℚ) - 2) * ((gs : ℚ) - 2)) *
              (acc.getD (getGridIndex gs ((p.1 : ℤ) + 1) (p.2 : ℤ)) 0 +
               acc.getD (getGridIndex gs ((p.1 : ℤ) - 1) (p.2 : ℤ)) 0 +
               acc.getD (getGridIndex gs (p.1 : ℤ) ((p.2 : ℤ) + 1)) 0 +
               acc.getD (getGridIndex gs (p.1 : ℤ) ((p.2 : ℤ) - 1)) 0)) /
              (1 + 6 * (dt * rate * ((gs : ℚ) - 2) * ((gs : ℚ) - 2))))) t)) := by
    funext t
    congr 1
    apply List.foldl_ext
    intro acc p _
    simp only [linSweep, linStep]
    rw [mul_one_div]
  rw [hfun]

theorem c2_diffusion_solve_witness :
    diffuseField 3 1 (1/2) 0 (List.replicate 25 (0 : ℚ))
        ((List.replicate 25 (0 : ℚ)).set 6 1) 1
      = diffuseSpec6 1 1 (1/2) 1 0 (List.replicate 25 (0 : ℚ))
        ((List.replicate 25 (0 : ℚ)).set 6 1) :=
  c2_diffusion_solve 3 1 (1/2) 1 0 _ _ (by norm_num)

/-! ### Claim C3: the projection operator -/

/-- Follows the claim text for projection verbatim, on the source buffer
layout, with N = GRID_SIZE - 2 the logical resolution: divergence by central
differences scaled by -0.5/N, then the Poisson solve with per-cell update
pressure = (divergence + sum of the four neighbor pressures) / 4, then the
gradient subtraction. -/
def projectClaim4 (gs iters : ℕ) (vx vy pr dv : List ℚ) :
    List ℚ × List ℚ × List ℚ × List ℚ :=
  let dp := (interiorCells gs).foldl (fun (dp : List ℚ × List ℚ) p =>
    (dp.1.set (getGridIndex gs (p.1 : ℤ) (p.2 : ℤ))
      (-(1/2) * (vx.getD (getGridIndex gs ((p.1 : ℤ) + 1) (p.2 : ℤ)) 0 -
                 vx.getD (getGridIndex gs ((p.1 : ℤ) - 1) (p.2 : ℤ)) 0 +
                 vy.getD (getGridIndex gs (p.1 : ℤ) ((p.2 : ℤ) + 1)) 0 -
                 vy.getD (getGridIndex gs (p.1 : ℤ) ((p.2 : ℤ) - 1)) 0) / ((gs : ℚ) - 2)),
     dp.2.set (getGridIndex gs (p.1 : ℤ) (p.2 : ℤ)) 0)) (dv, pr)
  let d1 := setBoundaryConditions gs 0 dp.1
  let p1 := setBoundaryConditions gs 0 dp.2
  let p2 := (fun t => setBoundaryConditions gs 0 ((interiorCells gs).foldl
    (fun acc p => acc.set (getGridIndex gs (p.1 : ℤ) (p.2 : ℤ))
      ((d1.getD (getGridIndex gs (p.1 : ℤ) (p.2 : ℤ)) 0 +
        (acc.getD (getGridIndex gs ((p.1 : ℤ) + 1) (p.2 : ℤ)) 0 +
         acc.getD (getGridIndex gs ((p.1 : ℤ) - 1) (p.2 : ℤ)) 0 +
         acc.getD (getGridIndex gs (p.1 : ℤ) ((p.2 : ℤ) + 1)) 0 +
         acc.getD (getGridIndex gs (p.1 : ℤ) ((p.2 : ℤ) - 1)) 0)) / 4)) t))^[iters] p1
  let vv := (interiorCells gs).foldl (gradStep gs p2) (vx, vy)
  (setBoundaryConditions gs 1 vv.1, setBoundaryConditions gs 2 vv.2, p2, d1)

/-- Claim C3 counterexample: on a concrete grid the source projection and
the claimed one disagree, because the code scales divergence by
-0.5/GRID_SIZE (not -0.5/N with N the logical resolution) and solves the
Poisson equation dividing by 6, not 4. -/
theorem c3_counterexample :
    (enforceIncompressibility 4 1 ((List.replicate 36 (0 : ℚ)).set 8 1)
        (List.replicate 36 (0 : ℚ)) (List.replicate 36 (0 : ℚ))
        (List.replicate 36 (0 : ℚ))).1.getD (getGridIndex 4 1 1) 0
      ≠ (projectClaim4 4 1 ((List.replicate 36 (0 : ℚ)).set 8 1)
        (List.replicate 36 (0 : ℚ)) (List.replicate 36 (0 : ℚ))
        (List.replicate 36 (0 : ℚ))).1.getD (getGridIndex 4 1 1) 0 := by
  with_unfolding_all decide

theorem solveLin_one_six (gs iters : ℕ) (b : ℕ) (target source : List ℚ) :
    solveLinearSystem gs iters b target source 1 6
      = (fun t => setBoundaryConditions gs b ((interiorCells gs).foldl
          (fun acc p => acc.set (getGridIndex gs (p.1 : ℤ) (p.2 : ℤ))
            ((source.getD (getGridIndex gs (p.1 : ℤ) (p.2 : ℤ)) 0 +
              (acc.getD (getGridIndex gs ((p.1 : ℤ) + 1) (p.2 : ℤ)) 0 +
               acc.getD (getGridIndex gs ((p.1 : ℤ) - 1) (p.2 : ℤ)) 0 +
               acc.getD (getGridIndex gs (p.1 : ℤ) ((p.2 : ℤ) + 1)) 0 +
               acc.getD (getGridIndex gs (p.1 : ℤ) ((p.2 : ℤ) - 1)) 0)) / 6)) t))^[iters]
        target := by
  unfold solveLinearSystem
  have hfun : (fun t => setBoundaryConditions gs b (linSweep gs 1 6 source t))
      = (fun t => setBoundaryConditions gs b ((interiorCells gs).foldl
          (fun acc p => acc.set (getGridIndex gs (p.1 : ℤ) (p.2 : ℤ))
            ((source.getD (getGridIndex gs (p.1 : ℤ) (p.2 : ℤ)) 0 +
              (acc.getD (getGridIndex gs ((p.1 : ℤ) + 1) (p.2 : ℤ)) 0 +
               acc.getD (getGridIndex gs ((p.1 : ℤ) - 1) (p.2 : ℤ)) 0 +
               acc.getD (getGridIndex gs (p.1 : ℤ) ((p.2 : ℤ) + 1)) 0 +
               acc.getD (getGridIndex gs (p.1 : ℤ) ((p.2 : ℤ) - 1)) 0)) / 6)) t)) := by
    funext t
    congr 1
    apply List.foldl_ext
    intro acc p _
    simp only [linSweep, linStep]
    rw [one_mul, mul_one_div]
  rw [hfun]

/-- Follows the amended specification text for projection, on the source
buffer layout (gs = N + 2 with N the logical resolution): divergence by
central differences scaled by -0.5/(N+2) (the padded GRID_SIZE constant the
code divides by), Poisson solve with per-cell update
pressure = (divergence + sum of the four neighbor pressures) / 6, then the
gradient subtraction and velocity boundary passes. -/
def projectSpec6 (N iters : ℕ) (vx vy pr dv : List ℚ) :
    List ℚ × List ℚ × List ℚ × List ℚ :=
  let dp := (interiorCells (N + 2)).foldl (divStep (N + 2) vx vy) (dv, pr)
  let d1 := setBoundaryConditions (N + 2) 0 dp.1
  let p1 := setBoundaryConditions (N + 2) 0 dp.2
  let p2 := (fun t => setBoundaryConditions (N + 2) 0 ((interiorCells (N + 2)).foldl
    (fun acc p => acc.set (getGridIndex (N + 2) (p.1 : ℤ) (p.2 : ℤ))
      ((d1.getD (getGridIndex (N + 2) (p.1 : ℤ) (p.2 : ℤ)) 0 +
        (acc.getD (getGridIndex (N + 2) ((p.1 : ℤ) + 1) (p.2 : ℤ)) 0 +
         acc.getD (getGridIndex (N + 2) ((p.1 : ℤ) - 1) (p.2 : ℤ)) 0 +
         acc.getD (getGridIndex (N + 2) (p.1 : ℤ) ((p.2 : ℤ) + 1)) 0 +
         acc.getD (getGridIndex (N + 2) (p.1 : ℤ) ((p.2 : ℤ) - 1)) 0)) / 6)) t))^[iters] p1
  let vv := (interiorCells (N + 2)).foldl (gradStep (N + 2) p2) (vx, vy)
  (setBoundaryConditions (N + 2) 1 vv.1, setBoundaryConditions (N + 2) 2 vv.2, p2, d1)

/-- Claim C3 as amended: enforceIncompressibility computes central-difference
divergence scaled by -0.5/GRID_SIZE (= -0.5/(N+2)) into the divergence
scratch buffer, zeroes the pressure scratch, and solves the Poisson equation
with the update pressure = (divergence + sum of neighbors) / 6 -- not 4 --
before subtracting the pressure gradient from the velocity. -/
theorem c3_projection (gs iters : ℕ) (vx vy pr dv : List ℚ) (hgs : 3 ≤ gs) :
    enforceIncompressibility gs iters vx vy pr dv
      = projectSpec6 (gs - 2) iters vx vy pr dv := by
  have hgseq : gs - 2 + 2 = gs := by omega
  simp only [enforceIncompressibility, projectSpec6, hgseq]
  rw [solveLin_one_six]

theorem c3_projection_witness :
    enforceIncompressibility 4 1 ((List.replicate 36 (0 : ℚ)).set 8 1)
        (List.replicate 36 (0 : ℚ)) (List.replicate 36 (0 : ℚ)) (List.replicate 36 (0 : ℚ))
      = projectSpec6 2 1 ((List.replicate 36 (0 : ℚ)).set 8 1)
        (List.replicate 36 (0 : ℚ)) (List.replicate 36 (0 : ℚ))
        (List.replicate 36 (0 : ℚ)) :=
  c3_projection 4 1 _ _ _ _ (by norm_num)

/-! ### Claim C6: advection is a convex combination -/

theorem bilerp_abs_le (gs : ℕ) (source : List ℚ) (M : ℚ)
    (hM : ∀ i : ℕ, |source.getD i 0| ≤ M) (sx sy : ℚ) : |bilerp gs source sx sy| ≤ M := by
  simp only [bilerp]
  rw [Int.self_sub_floor, Int.self_sub_floor]
  set u := Int.fract sx with hu_def
  set v := Int.fract sy with hv_def
  have hu : 0 ≤ u := Int.fract_nonneg sx
  have hv : 0 ≤ v := Int.fract_nonneg sy
  have h1u : 0 ≤ 1 - u := by have := Int.fract_lt_one sx; rw [← hu_def] at this; linarith
  have h1v : 0 ≤ 1 - v := by have := Int.fract_lt_one sy; rw [← hv_def] at this; linarith
  set a := source.getD (getGridIndex gs ⌊sx⌋ ⌊sy⌋) 0 with ha_def
  set b := source.getD (getGridIndex gs ⌊sx⌋ (⌊sy⌋ + 1)) 0 with hb_def
  set c := source.getD (getGridIndex gs (⌊sx⌋ + 1) ⌊sy⌋) 0 with hc_def
  set d := source.getD (getGridIndex gs (⌊sx⌋ + 1) (⌊sy⌋ + 1)) 0 with hd_def
  have hA : |(1 - v) * a + v * b| ≤ M := by
    calc |(1 - v) * a + v * b| ≤ |(1 - v) * a| + |v * b| := abs_add _ _
      _ = (1 - v) * |a| + v * |b| := by
          rw [abs_mul, abs_mul, abs_of_nonneg h1v, abs_of_nonneg hv]
      _ ≤ (1 - v) * M + v * M :=
          add_le_add (mul_le_mul_of_nonneg_left (hM _) h1v)
            (mul_le_mul_of_nonneg_left (hM _) hv)
      _ = M := by ring
  have hB : |(1 - v) * c + v * d| ≤ M := by
    calc |(1 - v) * c + v * d| ≤ |(1 - v) * c| + |v * d| := abs_add _ _
      _ = (1 - v) * |c| + v * |d| := by
          rw [abs_mul, abs_mul, abs_of_nonneg h1v, abs_of_nonneg hv]
      _ ≤ (1 - v) * M + v * M :=
          add_le_add (mul_le_mul_of_nonneg_left (hM _) h1v)
            (mul_le_mul_of_nonneg_left (hM _) hv)
      _ = M := by ring
  calc |(1 - u) * ((1 - v) * a + v * b) + u * ((1 - v) * c + v * d)|
      ≤ |(1 - u) * ((1 - v) * a + v * b)| + |u * ((1 - v) * c + v * d)| := abs_add _ _
    _ = (1 - u) * |(1 - v) * a + v * b| + u * |(1 - v) * c + v * d| := by
        rw [abs_mul, abs_mul, abs_of_nonneg h1u, abs_of_nonneg hu]
    _ ≤ (1 - u) * M + u * M :=
        add_le_add (mul_le_mul_of_nonneg_left hA h1u) (mul_le_mul_of_nonneg_left hB hu)
    _ = M := by ring

/-- The value advectField writes into an interior cell: the bilinear sample
of the source at the clamped backward-traced position. -/
theorem advectField_getD_interior (gs : ℕ) (dt : ℚ) (b : ℕ) (target source vx vy : List ℚ)
    (x y : ℕ) (hgs : 3 ≤ gs) (hlen : target.length = (gs + 2) ^ 2)
    (hx1 : 1 ≤ x) (hx2 : x ≤ gs - 2) (hy1 : 1 ≤ y) (hy2 : y ≤ gs - 2) :
    (advectField gs dt b target source vx vy).getD (getGridIndex gs (x : ℤ) (y : ℤ)) 0
      = bilerp gs source
          (backTrace gs dt vx (getGridIndex gs (x : ℤ) (y : ℤ)) x)
          (backTrace gs dt vy (getGridIndex gs (x : ℤ) (y : ℤ)) y) := by
  unfold advectField
  rw [setBnd_getD_preserved gs b _ x y hgs (by omega) (by omega) (Or.inl ⟨hx1, hx2, hy1, hy2⟩)]
  refine foldl_set_getD _ (fun p : ℕ × ℕ => getGridIndex gs (p.1 : ℤ) (p.2 : ℤ))
    (fun p => bilerp gs source
      (backTrace gs dt vx (getGridIndex gs (p.1 : ℤ) (p.2 : ℤ)) p.1)
      (backTrace gs dt vy (getGridIndex gs (p.1 : ℤ) (p.2 : ℤ)) p.2))
    (fun acc p => rfl) (interiorCells gs) (x, y) _ _
    ((mem_interiorCells gs x y).mpr ⟨hx1, hx2, hy1, hy2⟩) rfl rfl
    (fun p hp e => ?_) _ (by rw [hlen]; exact getGridIndex_lt gs x y (by omega) (by omega))
  rw [mem_interiorCells] at hp
  have hpe : p.1 = x ∧ p.2 = y :=
    getGridIndex_inj gs p.1 p.2 x y (by omega) (by omega) (by omega) (by omega) e
  show bilerp gs source
      (backTrace gs dt vx (getGridIndex gs (p.1 : ℤ) (p.2 : ℤ)) p.1)
      (backTrace gs dt vy (getGridIndex gs (p.1 : ℤ) (p.2 : ℤ)) p.2)
    = bilerp gs source
      (backTrace gs dt vx (getGridIndex gs (x : ℤ) (y : ℤ)) x)
      (backTrace gs dt vy (getGridIndex gs (x : ℤ) (y : ℤ)) y)
  rw [hpe.1, hpe.2]

/-- Claim C6 as amended: advectField backward-traces each interior cell to
(x, y) - dt * (GRID_SIZE-2) * velocity, clamps each coordinate into
[0.5, GRID_SIZE + 0.5] (that is, [0.5, N + 2.5] with N = GRID_SIZE - 2 the
logical resolution, not [0.5, N + 0.5] as the claim stated), and writes the
bilinear interpolation of the source there; the interpolation is a convex
combination obtained from non-negative weights summing to one, so no written
value can exceed any uniform bound on the source field. -/
theorem c6_advection (gs : ℕ) (dt : ℚ) (b : ℕ) (target source vx vy : List ℚ) (M : ℚ)
    (x y : ℕ) (hgs : 3 ≤ gs) (hlen : target.length = (gs + 2) ^ 2)
    (hx1 : 1 ≤ x) (hx2 : x ≤ gs - 2) (hy1 : 1 ≤ y) (hy2 : y ≤ gs - 2)
    (hM : ∀ i : ℕ, |source.getD i 0| ≤ M) :
    (advectField gs dt b target source vx vy).getD (getGridIndex gs (x : ℤ) (y : ℤ)) 0
      = bilerp gs source
          (backTrace gs dt vx (getGridIndex gs (x : ℤ) (y : ℤ)) x)
          (backTrace gs dt vy (getGridIndex gs (x : ℤ) (y : ℤ)) y)
    ∧ |(advectField gs dt b target source vx vy).getD (getGridIndex gs (x : ℤ) (y : ℤ)) 0|
        ≤ M := by
  have h := advectField_getD_interior gs dt b target source vx vy x y hgs hlen hx1 hx2 hy1 hy2
  refine ⟨h, ?_⟩
  rw [h]
  exact bilerp_abs_le gs source M hM _ _

theorem c6_advection_witness :
    (advectField 3 2 0 (List.replicate 25 (0 : ℚ)) (List.replicate 25 (0 : ℚ))
        (List.replicate 25 (0 : ℚ)) (List.replicate 25 (0 : ℚ))).getD
        (getGridIndex 3 1 1) 0
      = bilerp 3 (List.replicate 25 (0 : ℚ))
          (backTrace 3 2 (List.replicate 25 (0 : ℚ)) (getGridIndex 3 1 1) 1)
          (backTrace 3 2 (List.replicate 25 (0 : ℚ)) (getGridIndex 3 1 1) 1)
    ∧ |(advectField 3 2 0 (List.replicate 25 (0 : ℚ)) (List.replicate 25 (0 : ℚ))
        (List.replicate 25 (0 : ℚ)) (List.replicate 25 (0 : ℚ))).getD
        (getGridIndex 3 1 1) 0| ≤ 0 :=
  c6_advection 3 2 0 _ _ _ _ 0 1 1 (by norm_num) (by decide) (by norm_num) (by norm_num)
    (by norm_num) (by norm_num)
    (fun i => by rw [getD_replicate_zero]; norm_num)

/-- Follows the claim text for the advection clamp verbatim: the backward
trace is clamped into [0.5, N + 0.5] with N = GRID_SIZE - 2 the logical
resolution, everything else as in the source. -/
def advectClaim (gs : ℕ) (dt : ℚ) (b : ℕ) (target source vx vy : List ℚ) : List ℚ :=
  setBoundaryConditions gs b ((interiorCells gs).foldl
    (fun t p =>
      t.set (getGridIndex gs (p.1 : ℤ) (p.2 : ℤ))
        (bilerp gs source
          (qconstrain ((p.1 : ℚ) - dt * ((gs : ℚ) - 2) *
            vx.getD (getGridIndex gs (p.1 : ℤ) (p.2 : ℤ)) 0) (1/2) (((gs : ℚ) - 2) + 1/2))
          (qconstrain ((p.2 : ℚ) - dt * ((gs : ℚ) - 2) *
            vy.getD (getGridIndex gs (p.1 : ℤ) (p.2 : ℤ)) 0) (1/2) (((gs : ℚ) - 2) + 1/2))))
    target)

/-- Claim C6 counterexample: the source clamps the backward trace into
[0.5, GRID_SIZE + 0.5], not [0.5, N + 0.5] with N the logical resolution:
with a large negative velocity the two clamps select different sample cells
and produce different interior values. -/
theorem c6_counterexample :
    (advectField 3 1 0 (List.replicate 25 (0 : ℚ))
        (((List.replicate 25 (0 : ℚ)).set 8 8).set 6 1)
        ((List.replicate 25 (0 : ℚ)).set 6 (-3)) (List.replicate 25 (0 : ℚ))).getD
        (getGridIndex 3 1 1) 0
      ≠ (advectClaim 3 1 0 (List.replicate 25 (0 : ℚ))
        (((List.replicate 25 (0 : ℚ)).set 8 8).set 6 1)
        ((List.replicate 25 (0 : ℚ)).set 6 (-3)) (List.replicate 25 (0 : ℚ))).getD
        (getGridIndex 3 1 1) 0 := by
  with_unfolding_all decide

/-! ### Claim C8: the all-zero state is a fixed point of step -/

theorem ite_neg_zero (b k : ℕ) : (if b = k then -(0 : ℚ) else 0) = 0 := by
  split <;> simp

theorem bndTopBottom_replicate_zero (gs b n : ℕ) (x : ℕ) :
    bndTopBottom gs b (List.replicate n 0) x = List.replicate n 0 := by
  simp only [bndTopBottom]
  rw [getD_replicate_zero, ite_neg_zero, set_replicate_zero, getD_replicate_zero,
    ite_neg_zero, set_replicate_zero]

theorem bndLeftRight_replicate_zero (gs b n : ℕ) (y : ℕ) :
    bndLeftRight gs b (List.replicate n 0) y = List.replicate n 0 := by
  simp only [bndLeftRight]
  rw [getD_replicate_zero, ite_neg_zero, set_replicate_zero, getD_replicate_zero,
    ite_neg_zero, set_replicate_zero]

theorem setBnd_replicate_zero (gs b n : ℕ) :
    setBoundaryConditions gs b (List.replicate n 0) = List.replicate n 0 := by
  simp only [setBoundaryConditions]
  have hTB := foldl_invariant (bndTopBottom gs b) (List.range' 1 (gs - 2))
    (List.replicate n (0 : ℚ)) (fun acc => acc = List.replicate n 0) rfl
    (by
      intro acc c _ h
      show bndTopBottom gs b acc c = List.replicate n 0
      rw [h, bndTopBottom_replicate_zero])
  have hLR := foldl_invariant (bndLeftRight gs b) (List.range' 1 (gs - 2))
    ((List.range' 1 (gs - 2)).foldl (bndTopBottom gs b) (List.replicate n 0))
    (fun acc => acc = List.replicate n 0) hTB
    (by
      intro acc c _ h
      show bndLeftRight gs b acc c = List.replicate n 0
      rw [h, bndLeftRight_replicate_zero])
  rw [hLR]
  simp only [getD_replicate_zero, add_zero, mul_zero, set_replicate_zero]

theorem linSweep_replicate_zero (gs : ℕ) (a c : ℚ) (n : ℕ) :
    linSweep gs a c (List.replicate n 0) (List.replicate n 0) = List.replicate n 0 := by
  exact foldl_invariant (linStep gs a c (List.replicate n 0)) (interiorCells gs)
    (List.replicate n 0) (fun acc => acc = List.replicate n 0) rfl
    (by
      intro acc p _ h
      show linStep gs a c (List.replicate n 0) acc p = List.replicate n 0
      rw [h]
      simp only [linStep, getD_replicate_zero, add_zero, zero_add, mul_zero, zero_mul,
        set_replicate_zero])

theorem solveLin_replicate_zero (gs iters b : ℕ) (a c : ℚ) (n : ℕ) :
    solveLinearSystem gs iters b (List.replicate n 0) (List.replicate n 0) a c
      = List.replicate n 0 := by
  unfold solveLinearSystem
  apply Function.iterate_fixed
  show setBoundaryConditions gs b (linSweep gs a c (List.replicate n 0)
    (List.replicate n 0)) = List.replicate n 0
  rw [linSweep_replicate_zero, setBnd_replicate_zero]

theorem diffuseField_replicate_zero (gs iters : ℕ) (dt : ℚ) (b : ℕ) (rate : ℚ) (n : ℕ) :
    diffuseField gs iters dt b (List.replicate n 0) (List.replicate n 0) rate
      = List.replicate n 0 := by
  unfold diffuseField
  rw [solveLin_replicate_zero]

theorem bilerp_replicate_zero (gs n : ℕ) (sx sy : ℚ) :
    bilerp gs (List.replicate n 0) sx sy = 0 := by
  simp only [bilerp, getD_replicate_zero]
  ring

theorem advectField_replicate_zero (gs : ℕ) (dt : ℚ) (b : ℕ) (vx vy : List ℚ) (n : ℕ) :
    advectField gs dt b (List.replicate n 0) (List.replicate n 0) vx vy
      = List.replicate n 0 := by
  unfold advectField
  have hfold := foldl_invariant (advStep gs dt (List.replicate n 0) vx vy) (interiorCells gs)
    (List.replicate n 0) (fun acc => acc = List.replicate n 0) rfl
    (by
      intro acc p _ h
      show advStep gs dt (List.replicate n 0) vx vy acc p = List.replicate n 0
      rw [h]
      simp only [advStep]
      rw [bilerp_replicate_zero, set_replicate_zero])
  rw [hfold, setBnd_replicate_zero]

theorem project_replicate_zero (gs iters n : ℕ) :
    enforceIncompressibility gs iters (List.replicate n 0) (List.replicate n 0)
        (List.replicate n 0) (List.replicate n 0)
      = (List.replicate n 0, List.replicate n 0, List.replicate n 0,
         List.replicate n 0) := by
  simp only [enforceIncompressibility]
  have hdp := foldl_invariant (divStep gs (List.replicate n 0) (List.replicate n 0))
    (interiorCells gs) ((List.replicate n (0 : ℚ)), (List.replicate n (0 : ℚ)))
    (fun acc => acc = (List.replicate n 0, List.replicate n 0)) rfl
    (by
      intro acc p _ h
      show divStep gs (List.replicate n 0) (List.replicate n 0) acc p
        = (List.replicate n 0, List.replicate n 0)
      rw [h]
      simp only [divStep, getD_replicate_zero, add_zero, sub_zero, zero_sub, neg_zero,
        mul_zero, zero_div, set_replicate_zero])
  rw [hdp]
  simp only [setBnd_replicate_zero, solveLin_replicate_zero]
  have hvv := foldl_invariant (gradStep gs (List.replicate n 0)) (interiorCells gs)
    ((List.replicate n (0 : ℚ)), (List.replicate n (0 : ℚ)))
    (fun acc => acc = (List.replicate n 0, List.replicate n 0)) rfl
    (by
      intro acc p _ h
      show gradStep gs (List.replicate n 0) acc p
        = (List.replicate n 0, List.replicate n 0)
      rw [h]
      simp only [gradStep, getD_replicate_zero, sub_zero, sub_self, mul_zero, zero_mul,
        set_replicate_zero])
  rw [hvv]
  simp only [setBnd_replicate_zero]

theorem step_zero_fixed (gs iters n : ℕ) (dt diff visc cool : ℚ) :
    Fluid.step gs iters
      { timeStep := dt, diffusion := diff, viscosity := visc, buoyancy := 0,
        coolingRate := cool,
        previousDensity := List.replicate n 0, density := List.replicate n 0,
        previousTemperature := List.replicate n 0, temperature := List.replicate n 0,
        horizontalVelocity := List.replicate n 0, verticalVelocity := List.replicate n 0,
        previousHorizontalVelocity := List.replicate n 0,
        previousVerticalVelocity := List.replicate n 0 }
      = { timeStep := dt, diffusion := diff, viscosity := visc, buoyancy := 0,
          coolingRate := cool,
          previousDensity := List.replicate n 0, density := List.replicate n 0,
          previousTemperature := List.replicate n 0, temperature := List.replicate n 0,
          horizontalVelocity := List.replicate n 0, verticalVelocity := List.replicate n 0,
          previousHorizontalVelocity := List.replicate n 0,
          previousVerticalVelocity := List.replicate n 0 } := by
  simp only [Fluid.step, lt_self_iff_false, if_false, diffuseField_replicate_zero,
    advectField_replicate_zero, project_replicate_zero, List.map_replicate, zero_mul]

/-- Claim C8: starting from the all-zero state with buoyancy coefficient 0
(the state the constructor produces, no injections made, and with no
vorticity stage present in the source), any number of step calls leaves
every cell of every field zero. -/
theorem c8_zero_state (gs iters k n : ℕ) (dt diff visc cool : ℚ) :
    (Fluid.step gs iters)^[k]
      { timeStep := dt, diffusion := diff, viscosity := visc, buoyancy := 0,
        coolingRate := cool,
        previousDensity := List.replicate n 0, density := List.replicate n 0,
        previousTemperature := List.replicate n 0, temperature := List.replicate n 0,
        horizontalVelocity := List.replicate n 0, verticalVelocity := List.replicate n 0,
        previousHorizontalVelocity := List.replicate n 0,
        previousVerticalVelocity := List.replicate n 0 }
      = { timeStep := dt, diffusion := diff, viscosity := visc, buoyancy := 0,
          coolingRate := cool,
          previousDensity := List.replicate n 0, density := List.replicate n 0,
          previousTemperature := List.replicate n 0, temperature := List.replicate n 0,
          horizontalVelocity := List.replicate n 0, verticalVelocity := List.replicate n 0,
          previousHorizontalVelocity := List.replicate n 0,
          previousVerticalVelocity := List.replicate n 0 } :=
  Function.iterate_fixed (step_zero_fixed gs iters n dt diff visc cool) k

/-! ### Claim C9: construction never fails -/

/-- Modelled from the spec: section 7 of the specification demands that a
construction request with zero or negative grid resolution fail fast. The
source constructor (src/fluid.js lines 6 to 30) takes no resolution argument
at all (GRID_SIZE is a global) and has no failure path; this Option-valued
definition models the claimed fail-fast contract, with the source
constructor in the success branch. -/
def specConstruct (gz : ℤ) (timeStep diffusionRate viscosity : ℚ) : Option Fluid :=
  if gz ≤ 0 then none else some (mkFluid gz timeStep diffusionRate viscosity)

/-- Claim C9 counterexample: at resolution 0 the claimed contract rejects
the construction, but the source constructor still produces a solver object
with allocated (0+2)^2 buffers; nothing in the code validates the grid
constant. -/
theorem c9_counterexample :
    specConstruct 0 (1/10) 0 0 = none
    ∧ (mkFluid 0 (1/10) 0 0).density = List.replicate 4 0 := by
  exact ⟨rfl, by with_unfolding_all rfl⟩

/-- Claim C9 as amended: construction is total and never rejected. For every
integer resolution (zero and negative included) the constructor returns a
solver object with buoyancy 0, coolingRate 0.99, the given parameters, and
all eight buffers allocated with ((resolution + 2)^2).toNat zero cells. -/
theorem c9_construction_total (gz : ℤ) (dt d v : ℚ) :
    (mkFluid gz dt d v).timeStep = dt
    ∧ (mkFluid gz dt d v).buoyancy = 0
    ∧ (mkFluid gz dt d v).coolingRate = 99/100
    ∧ (mkFluid gz dt d v).density = List.replicate (((gz + 2) ^ 2).toNat) 0
    ∧ (mkFluid gz dt d v).horizontalVelocity = List.replicate (((gz + 2) ^ 2).toNat) 0 :=
  ⟨rfl, rfl, rfl, rfl, rfl⟩

/-! ### Outer-region preservation of every stage (for claim C10) -/

theorem getD_map (f : ℚ → ℚ) (l : List ℚ) (i : ℕ) (h : i < l.length) :
    (l.map f).getD i 0 = f (l.getD i 0) := by
  rw [List.getD_eq_getElem?_getD, List.getElem?_map, List.getElem?_eq_getElem h,
    List.getD_eq_getElem?_getD, List.getElem?_eq_getElem h]
  rfl

theorem getD_zipWith (f : ℚ → ℚ → ℚ) (l1 l2 : List ℚ) (i : ℕ)
    (h1 : i < l1.length) (h2 : i < l2.length) :
    (List.zipWith f l1 l2).getD i 0 = f (l1.getD i 0) (l2.getD i 0) := by
  rw [List.getD_eq_getElem?_getD, List.getElem?_zipWith, List.getElem?_eq_getElem h1,
    List.getElem?_eq_getElem h2, List.getD_eq_getElem?_getD, List.getElem?_eq_getElem h1,
    List.getD_eq_getElem?_getD, List.getElem?_eq_getElem h2]
  rfl

theorem advectField_length (gs : ℕ) (dt : ℚ) (b : ℕ) (target source vx vy : List ℚ) :
    (advectField gs dt b target source vx vy).length = target.length := by
  unfold advectField
  rw [setBnd_length]
  exact foldl_invariant (advStep gs dt source vx vy) (interiorCells gs) target
    (fun acc => acc.length = target.length) rfl
    (by
      intro acc p _ h
      show (advStep gs dt source vx vy acc p).length = target.length
      simp only [advStep]
      rw [List.length_set]
      exact h)

theorem advectField_getD_outer (gs : ℕ) (dt : ℚ) (b : ℕ) (target source vx vy : List ℚ)
    (x y : ℕ) (hgs : 3 ≤ gs) (hx : x ≤ gs + 1) (hy : y ≤ gs + 1) (hout : gs ≤ x ∨ gs ≤ y) :
    (advectField gs dt b target source vx vy).getD (getGridIndex gs (x : ℤ) (y : ℤ)) 0
      = target.getD (getGridIndex gs (x : ℤ) (y : ℤ)) 0 := by
  unfold advectField
  rw [setBnd_getD_preserved gs b _ x y hgs hx hy (Or.inr hout)]
  exact foldl_invariant (advStep gs dt source vx vy) (interiorCells gs) target
    (fun acc => acc.getD (getGridIndex gs (x : ℤ) (y : ℤ)) 0
      = target.getD (getGridIndex gs (x : ℤ) (y : ℤ)) 0) rfl
    (by
      intro acc p hp h
      rw [mem_interiorCells] at hp
      show (advStep gs dt source vx vy acc p).getD (getGridIndex gs (x : ℤ) (y : ℤ)) 0
        = target.getD (getGridIndex gs (x : ℤ) (y : ℤ)) 0
      simp only [advStep]
      rw [getD_set_ne _ _ _ _ (getGridIndex_ne gs p.1 p.2 x y (by omega) (by omega) hx hy
        (by omega))]
      exact h)

theorem diffuseField_getD_outer (gs iters : ℕ) (dt : ℚ) (b : ℕ) (target source : List ℚ)
    (rate : ℚ) (x y : ℕ) (hgs : 3 ≤ gs) (hx : x ≤ gs + 1) (hy : y ≤ gs + 1)
    (hout : gs ≤ x ∨ gs ≤ y) :
    (diffuseField gs iters dt b target source rate).getD
        (getGridIndex gs (x : ℤ) (y : ℤ)) 0
      = target.getD (getGridIndex gs (x : ℤ) (y : ℤ)) 0 := by
  unfold diffuseField
  exact solveLin_getD_outer gs iters b target source _ _ x y hgs hx hy hout

theorem diffuseField_length (gs iters : ℕ) (dt : ℚ) (b : ℕ) (target source : List ℚ)
    (rate : ℚ) :
    (diffuseField gs iters dt b target source rate).length = target.length := by
  unfold diffuseField
  rw [solveLin_length]

theorem project_lengths (gs iters : ℕ) (vx vy pr dv : List ℚ) :
    (enforceIncompressibility gs iters vx vy pr dv).1.length = vx.length
    ∧ (enforceIncompressibility gs iters vx vy pr dv).2.1.length = vy.length
    ∧ (enforceIncompressibility gs iters vx vy pr dv).2.2.1.length = pr.length
    ∧ (enforceIncompressibility gs iters vx vy pr dv).2.2.2.length = dv.length := by
  simp only [enforceIncompressibility]
  have hdp := foldl_invariant (divStep gs vx vy) (interiorCells gs) (dv, pr)
    (fun acc : List ℚ × List ℚ => acc.1.length = dv.length ∧ acc.2.length = pr.length)
    ⟨rfl, rfl⟩
    (by
      intro acc p _ h
      show (divStep gs vx vy acc p).1.length = dv.length
        ∧ (divStep gs vx vy acc p).2.length = pr.length
      simp only [divStep]
      rw [List.length_set, List.length_set]
      exact h)
  have hvv := foldl_invariant
    (gradStep gs (solveLinearSystem gs iters 0
      (setBoundaryConditions gs 0
        ((interiorCells gs).foldl (divStep gs vx vy) (dv, pr)).2)
      (setBoundaryConditions gs 0
        ((interiorCells gs).foldl (divStep gs vx vy) (dv, pr)).1) 1 6))
    (interiorCells gs) (vx, vy)
    (fun acc : List ℚ × List ℚ => acc.1.length = vx.length ∧ acc.2.length = vy.length)
    ⟨rfl, rfl⟩
    (by
      intro acc p _ h
      show (gradStep gs _ acc p).1.length = vx.length
        ∧ (gradStep gs _ acc p).2.length = vy.length
      simp only [gradStep]
      rw [List.length_set, List.length_set]
      exact h)
  refine ⟨?_, ?_, ?_, ?_⟩
  · rw [setBnd_length]
    exact hvv.1
  · rw [setBnd_length]
    exact hvv.2
  · rw [solveLin_length, setBnd_length]
    exact hdp.2
  · rw [setBnd_length]
    exact hdp.1

theorem project_getD_outer (gs iters : ℕ) (vx vy pr dv : List ℚ) (x y : ℕ)
    (hgs : 3 ≤ gs) (hx : x ≤ gs + 1) (hy : y ≤ gs + 1) (hout : gs ≤ x ∨ gs ≤ y) :
    (enforceIncompressibility gs iters vx vy pr dv).1.getD
        (getGridIndex gs (x : ℤ) (y : ℤ)) 0 = vx.getD (getGridIndex gs (x : ℤ) (y : ℤ)) 0
    ∧ (enforceIncompressibility gs iters vx vy pr dv).2.1.getD
        (getGridIndex gs (x : ℤ) (y : ℤ)) 0 = vy.getD (getGridIndex gs (x : ℤ) (y : ℤ)) 0
    ∧ (enforceIncompressibility gs iters vx vy pr dv).2.2.1.getD
        (getGridIndex gs (x : ℤ) (y : ℤ)) 0 = pr.getD (getGridIndex gs (x : ℤ) (y : ℤ)) 0
    ∧ (enforceIncompressibility gs iters vx vy pr dv).2.2.2.getD
        (getGridIndex gs (x : ℤ) (y : ℤ)) 0
      = dv.getD (getGridIndex gs (x : ℤ) (y : ℤ)) 0 := by
  simp only [enforceIncompressibility]
  have hdp := foldl_invariant (divStep gs vx vy) (interiorCells gs) (dv, pr)
    (fun acc : List ℚ × List ℚ =>
      acc.1.getD (getGridIndex gs (x : ℤ) (y : ℤ)) 0
        = dv.getD (getGridIndex gs (x : ℤ) (y : ℤ)) 0
      ∧ acc.2.getD (getGridIndex gs (x : ℤ) (y : ℤ)) 0
        = pr.getD (getGridIndex gs (x : ℤ) (y : ℤ)) 0)
    ⟨rfl, rfl⟩
    (by
      intro acc p hp h
      rw [mem_interiorCells] at hp
      show (divStep gs vx vy acc p).1.getD (getGridIndex gs (x : ℤ) (y : ℤ)) 0 = _
        ∧ (divStep gs vx vy acc p).2.getD (getGridIndex gs (x : ℤ) (y : ℤ)) 0 = _
      simp only [divStep]
      rw [getD_set_ne _ _ _ _ (getGridIndex_ne gs p.1 p.2 x y (by omega) (by omega) hx hy
          (by omega)),
        getD_set_ne _ _ _ _ (getGridIndex_ne gs p.1 p.2 x y (by omega) (by omega) hx hy
          (by omega))]
      exact h)
  have hvv := foldl_invariant
    (gradStep gs (solveLinearSystem gs iters 0
      (setBoundaryConditions gs 0
        ((interiorCells gs).foldl (divStep gs vx vy) (dv, pr)).2)
      (setBoundaryConditions gs 0
        ((interiorCells gs).foldl (divStep gs vx vy) (dv, pr)).1) 1 6))
    (interiorCells gs) (vx, vy)
    (fun acc : List ℚ × List ℚ =>
      acc.1.getD (getGridIndex gs (x : ℤ) (y : ℤ)) 0
        = vx.getD (getGridIndex gs (x : ℤ) (y : ℤ)) 0
      ∧ acc.2.getD (getGridIndex gs (x : ℤ) (y : ℤ)) 0
        = vy.getD (getGridIndex gs (x : ℤ) (y : ℤ)) 0)
    ⟨rfl, rfl⟩
    (by
      intro acc p hp h
      rw [mem_interiorCells] at hp
      show (gradStep gs _ acc p).1.getD (getGridIndex gs (x : ℤ) (y : ℤ)) 0 = _
        ∧ (gradStep gs _ acc p).2.getD (getGridIndex gs (x : ℤ) (y : ℤ)) 0 = _
      simp only [gradStep]
      rw [getD_set_ne _ _ _ _ (getGridIndex_ne gs p.1 p.2 x y (by omega) (by omega) hx hy
          (by omega)),
        getD_set_ne _ _ _ _ (getGridIndex_ne gs p.1 p.2 x y (by omega) (by omega) hx hy
          (by omega))]
      exact h)
  refine ⟨?_, ?_, ?_, ?_⟩
  · rw [setBnd_getD_preserved gs 1 _ x y hgs hx hy (Or.inr hout)]
    exact hvv.1
  · rw [setBnd_getD_preserved gs 2 _ x y hgs hx hy (Or.inr hout)]
    exact hvv.2
  · rw [solveLin_getD_outer gs iters 0 _ _ 1 6 x y hgs hx hy hout,
      setBnd_getD_preserved gs 0 _ x y hgs hx hy (Or.inr hout)]
    exact hdp.2
  · rw [setBnd_getD_preserved gs 0 _ x y hgs hx hy (Or.inr hout)]
    exact hdp.1

theorem project_outer_vx (gs iters : ℕ) (vx vy pr dv : List ℚ) (x y : ℕ)
    (hgs : 3 ≤ gs) (hx : x ≤ gs + 1) (hy : y ≤ gs + 1) (hout : gs ≤ x ∨ gs ≤ y) :
    (enforceIncompressibility gs iters vx vy pr dv).1.getD
        (getGridIndex gs (x : ℤ) (y : ℤ)) 0
      = vx.getD (getGridIndex gs (x : ℤ) (y : ℤ)) 0 :=
  (project_getD_outer gs iters vx vy pr dv x y hgs hx hy hout).1

theorem project_outer_vy (gs iters : ℕ) (vx vy pr dv : List ℚ) (x y : ℕ)
    (hgs : 3 ≤ gs) (hx : x ≤ gs + 1) (hy : y ≤ gs + 1) (hout : gs ≤ x ∨ gs ≤ y) :
    (enforceIncompressibility gs iters vx vy pr dv).2.1.getD
        (getGridIndex gs (x : ℤ) (y : ℤ)) 0
      = vy.getD (getGridIndex gs (x : ℤ) (y : ℤ)) 0 :=
  (project_getD_outer gs iters vx vy pr dv x y hgs hx hy hout).2.1

theorem project_outer_pr (gs iters : ℕ) (vx vy pr dv : List ℚ) (x y : ℕ)
    (hgs : 3 ≤ gs) (hx : x ≤ gs + 1) (hy : y ≤ gs + 1) (hout : gs ≤ x ∨ gs ≤ y) :
    (enforceIncompressibility gs iters vx vy pr dv).2.2.1.getD
        (getGridIndex gs (x : ℤ) (y : ℤ)) 0
      = pr.getD (getGridIndex gs (x : ℤ) (y : ℤ)) 0 :=
  (project_getD_outer gs iters vx vy pr dv x y hgs hx hy hout).2.2.1

theorem project_outer_dv (gs iters : ℕ) (vx vy pr dv : List ℚ) (x y : ℕ)
    (hgs : 3 ≤ gs) (hx : x ≤ gs + 1) (hy : y ≤ gs + 1) (hout : gs ≤ x ∨ gs ≤ y) :
    (enforceIncompressibility gs iters vx vy pr dv).2.2.2.getD
        (getGridIndex gs (x : ℤ) (y : ℤ)) 0
      = dv.getD (getGridIndex gs (x : ℤ) (y : ℤ)) 0 :=
  (project_getD_outer gs iters vx vy pr dv x y hgs hx hy hout).2.2.2

theorem project_len_vx (gs iters : ℕ) (vx vy pr dv : List ℚ) :
    (enforceIncompressibility gs iters vx vy pr dv).1.length = vx.length :=
  (project_lengths gs iters vx vy pr dv).1

theorem project_len_vy (gs iters : ℕ) (vx vy pr dv : List ℚ) :
    (enforceIncompressibility gs iters vx vy pr dv).2.1.length = vy.length :=
  (project_lengths gs iters vx vy pr dv).2.1

theorem project_len_pr (gs iters : ℕ) (vx vy pr dv : List ℚ) :
    (enforceIncompressibility gs iters vx vy pr dv).2.2.1.length = pr.length :=
  (project_lengths gs iters vx vy pr dv).2.2.1

theorem project_len_dv (gs iters : ℕ) (vx vy pr dv : List ℚ) :
    (enforceIncompressibility gs iters vx vy pr dv).2.2.2.length = dv.length :=
  (project_lengths gs iters vx vy pr dv).2.2.2

theorem applyBuoyancyForce_length (buoy : ℚ) (temp vert : List ℚ) :
    (applyBuoyancyForce buoy temp vert).length = min vert.length temp.length := by
  unfold applyBuoyancyForce
  rw [List.length_zipWith]

/-- Claim C10 as amended: the sweep, boundary and projection stages of step
never write any cell with x or y coordinate GRID_SIZE or GRID_SIZE+1, so the
scratch (previous) buffers keep their old values there; but the buoyancy and
decay loops run over the whole padded buffer, so at those cells the live
fields are rescaled per cell: density by 0.995, horizontal velocity by 0.99,
vertical velocity by 0.99 after the conditional buoyancy update, and
temperature by the cooling factor (or zeroed when buoyancy is off). In
particular such a cell holding zero in every field stays zero, but a nonzero
value there is changed by step, contrary to the claim. -/
theorem c10_outer_cells (gs iters : ℕ) (f : Fluid) (x y : ℕ) (hgs : 3 ≤ gs)
    (hx : x ≤ gs + 1) (hy : y ≤ gs + 1) (hout : gs ≤ x ∨ gs ≤ y)
    (h2 : f.density.length = (gs + 2) ^ 2)
    (h4 : f.temperature.length = (gs + 2) ^ 2)
    (h5 : f.horizontalVelocity.length = (gs + 2) ^ 2)
    (h6 : f.verticalVelocity.length = (gs + 2) ^ 2) :
    (Fluid.step gs iters f).previousDensity.getD (getGridIndex gs (x : ℤ) (y : ℤ)) 0
      = f.previousDensity.getD (getGridIndex gs (x : ℤ) (y : ℤ)) 0
    ∧ (Fluid.step gs iters f).previousTemperature.getD (getGridIndex gs (x : ℤ) (y : ℤ)) 0
      = f.previousTemperature.getD (getGridIndex gs (x : ℤ) (y : ℤ)) 0
    ∧ (Fluid.step gs iters f).previousHorizontalVelocity.getD
        (getGridIndex gs (x : ℤ) (y : ℤ)) 0
      = f.previousHorizontalVelocity.getD (getGridIndex gs (x : ℤ) (y : ℤ)) 0
    ∧ (Fluid.step gs iters f).previousVerticalVelocity.getD
        (getGridIndex gs (x : ℤ) (y : ℤ)) 0
      = f.previousVerticalVelocity.getD (getGridIndex gs (x : ℤ) (y : ℤ)) 0
    ∧ (Fluid.step gs iters f).density.getD (getGridIndex gs (x : ℤ) (y : ℤ)) 0
      = f.density.getD (getGridIndex gs (x : ℤ) (y : ℤ)) 0 * (199/200)
    ∧ (Fluid.step gs iters f).temperature.getD (getGridIndex gs (x : ℤ) (y : ℤ)) 0
      = (if 0 < f.buoyancy
          then f.temperature.getD (getGridIndex gs (x : ℤ) (y : ℤ)) 0 * f.coolingRate
          else 0)
    ∧ (Fluid.step gs iters f).horizontalVelocity.getD (getGridIndex gs (x : ℤ) (y : ℤ)) 0
      = f.horizontalVelocity.getD (getGridIndex gs (x : ℤ) (y : ℤ)) 0 * (99/100)
    ∧ (Fluid.step gs iters f).verticalVelocity.getD (getGridIndex gs (x : ℤ) (y : ℤ)) 0
      = (if 0 < f.buoyancy
          then (if 0 < f.temperature.getD (getGridIndex gs (x : ℤ) (y : ℤ)) 0
            then f.verticalVelocity.getD (getGridIndex gs (x : ℤ) (y : ℤ)) 0
              - f.temperature.getD (getGridIndex gs (x : ℤ) (y : ℤ)) 0 * f.buoyancy
            else f.verticalVelocity.getD (getGridIndex gs (x : ℤ) (y : ℤ)) 0)
          else f.verticalVelocity.getD (getGridIndex gs (x : ℤ) (y : ℤ)) 0) * (99/100) := by
  have hi : getGridIndex gs (x : ℤ) (y : ℤ) < (gs + 2) ^ 2 :=
    getGridIndex_lt gs x y (by omega) (by omega)
  by_cases hb : 0 < f.buoyancy
  · simp only [Fluid.step, if_pos hb]
    refine ⟨?_, ?_, ?_, ?_, ?_, ?_, ?_, ?_⟩
    · rw [diffuseField_getD_outer gs iters f.timeStep 0 _ _ _ x y hgs hx hy hout]
    · rw [diffuseField_getD_outer gs iters f.timeStep 0 _ _ _ x y hgs hx hy hout]
    · rw [project_outer_pr gs iters _ _ _ _ x y hgs hx hy hout,
        project_outer_vx gs iters _ _ _ _ x y hgs hx hy hout,
        diffuseField_getD_outer gs iters f.timeStep 1 _ _ _ x y hgs hx hy hout]
    · rw [project_outer_dv gs iters _ _ _ _ x y hgs hx hy hout,
        project_outer_vy gs iters _ _ _ _ x y hgs hx hy hout,
        diffuseField_getD_outer gs iters f.timeStep 2 _ _ _ x y hgs hx hy hout]
    · rw [getD_map _ _ _ (by rw [advectField_length, h2]; exact hi),
        advectField_getD_outer gs f.timeStep 0 _ _ _ _ x y hgs hx hy hout]
    · rw [getD_map _ _ _ (by rw [advectField_length, h4]; exact hi),
        advectField_getD_outer gs f.timeStep 0 _ _ _ _ x y hgs hx hy hout]
    · rw [getD_map _ _ _ (by
        rw [project_len_vx, advectField_length, project_len_pr, h5]; exact hi),
        project_outer_vx gs iters _ _ _ _ x y hgs hx hy hout,
        advectField_getD_outer gs f.timeStep 1 _ _ _ _ x y hgs hx hy hout,
        project_outer_pr gs iters _ _ _ _ x y hgs hx hy hout]
    · rw [getD_map _ _ _ (by
        rw [project_len_vy, advectField_length, project_len_dv, applyBuoyancyForce_length,
          advectField_length, h4, h6]
        simp only [min_self]
        exact hi),
        project_outer_vy gs iters _ _ _ _ x y hgs hx hy hout,
        advectField_getD_outer gs f.timeStep 2 _ _ _ _ x y hgs hx hy hout,
        project_outer_dv gs iters _ _ _ _ x y hgs hx hy hout]
      show (applyBuoyancyForce f.buoyancy _ f.verticalVelocity).getD
        (getGridIndex gs (x : ℤ) (y : ℤ)) 0 * (99/100) = _
      unfold applyBuoyancyForce
      rw [getD_zipWith _ _ _ _ (by rw [h6]; exact hi)
        (by rw [advectField_length, h4]; exact hi)]
      rw [advectField_getD_outer gs f.timeStep 0 _ _ _ _ x y hgs hx hy hout]
  · simp only [Fluid.step, if_neg hb]
    refine ⟨?_, ?_, ?_, ?_, ?_, ?_, ?_, ?_⟩
    · rw [diffuseField_getD_outer gs iters f.timeStep 0 _ _ _ x y hgs hx hy hout]
    · rw [diffuseField_getD_outer gs iters f.timeStep 0 _ _ _ x y hgs hx hy hout]
    · rw [project_outer_pr gs iters _ _ _ _ x y hgs hx hy hout,
        project_outer_vx gs iters _ _ _ _ x y hgs hx hy hout,
        diffuseField_getD_outer gs iters f.timeStep 1 _ _ _ x y hgs hx hy hout]
    · rw [project_outer_dv gs iters _ _ _ _ x y hgs hx hy hout,
        project_outer_vy gs iters _ _ _ _ x y hgs hx hy hout,
        diffuseField_getD_outer gs iters f.timeStep 2 _ _ _ x y hgs hx hy hout]
    · rw [getD_map _ _ _ (by rw [advectField_length, h2]; exact hi),
        advectField_getD_outer gs f.timeStep 0 _ _ _ _ x y hgs hx hy hout]
    · rw [getD_map _ _ _ (by rw [advectField_length, h4]; exact hi)]
    · rw [getD_map _ _ _ (by
        rw [project_len_vx, advectField_length, project_len_pr, h5]; exact hi),
        project_outer_vx gs iters _ _ _ _ x y hgs hx hy hout,
        advectField_getD_outer gs f.timeStep 1 _ _ _ _ x y hgs hx hy hout,
        project_outer_pr gs iters _ _ _ _ x y hgs hx hy hout]
    · rw [getD_map _ _ _ (by
        rw [project_len_vy, advectField_length, project_len_dv, h6]; exact hi),
        project_outer_vy gs iters _ _ _ _ x y hgs hx hy hout,
        advectField_getD_outer gs f.timeStep 2 _ _ _ _ x y hgs hx hy hout,
        project_outer_dv gs iters _ _ _ _ x y hgs hx hy hout]

/-- Claim C10 counterexample: a nonzero density in the outer region (cell
(GRID_SIZE, 0), untouched by every sweep) is still rescaled by the decay
loop, so it does not hold the same value after step. -/
theorem c10_counterexample :
    (Fluid.step 3 1
      { timeStep := 1, diffusion := 0, viscosity := 0, buoyancy := 0, coolingRate := 1/2,
        previousDensity := List.replicate 25 0,
        density := (List.replicate 25 (0 : ℚ)).set 3 1,
        previousTemperature := List.replicate 25 0, temperature := List.replicate 25 0,
        horizontalVelocity := List.replicate 25 0, verticalVelocity := List.replicate 25 0,
        previousHorizontalVelocity := List.replicate 25 0,
        previousVerticalVelocity := List.replicate 25 0 }).density.getD
      (getGridIndex 3 3 0) 0
    ≠ ((List.replicate 25 (0 : ℚ)).set 3 1).getD (getGridIndex 3 3 0) 0 := by
  with_unfolding_all decide

theorem c10_outer_cells_witness :
    (Fluid.step 3 1 (mkFluid 3 1 0 0)).density.getD (getGridIndex 3 3 0) 0
      = (mkFluid 3 1 0 0).density.getD (getGridIndex 3 3 0) 0 * (199/200) :=
  (c10_outer_cells 3 1 (mkFluid 3 1 0 0) 3 0 (by norm_num) (by norm_num) (by norm_num)
    (by norm_num) (by decide) (by decide) (by decide) (by decide)).2.2.2.2.1

/-! ### Claim C1: stage order of step -/

/-- Follows the claim text: the stage functions of the source composed in
the order the specification gives -- external force injection (empty during
a step), buoyancy, vorticity confinement, velocity diffusion, projection,
velocity advection, projection again, scalar (temperature and density)
diffusion, scalar advection, decay/cooling. The vorticity-confinement stage
acts only on velocity and is instantiated at strength zero, where the
specification says a stage parameter magnitude of zero makes the stage
effect zero, so it is the identity on the velocity pair here. -/
def specStepClaim (gs iters : ℕ) (f : Fluid) : Fluid :=
  let vV1 := if 0 < f.buoyancy then applyBuoyancyForce f.buoyancy f.temperature
               f.verticalVelocity
             else f.verticalVelocity
  let vort := (f.horizontalVelocity, vV1)
  let pH := diffuseField gs iters f.timeStep 1 f.previousHorizontalVelocity vort.1
              f.viscosity
  let pV := diffuseField gs iters f.timeStep 2 f.previousVerticalVelocity vort.2 f.viscosity
  let q1 := enforceIncompressibility gs iters pH pV vort.1 vort.2
  let hV3 := advectField gs f.timeStep 1 q1.2.2.1 q1.1 q1.1 q1.2.1
  let vV3 := advectField gs f.timeStep 2 q1.2.2.2 q1.2.1 q1.1 q1.2.1
  let q2 := enforceIncompressibility gs iters hV3 vV3 q1.1 q1.2.1
  let pT := diffuseField gs iters f.timeStep 0 f.previousTemperature f.temperature
              f.diffusion
  let pD := diffuseField gs iters f.timeStep 0 f.previousDensity f.density f.diffusion
  let T := advectField gs f.timeStep 0 f.temperature pT q2.1 q2.2.1
  let D := advectField gs f.timeStep 0 f.density pD q2.1 q2.2.1
  { f with
    previousTemperature := pT
    temperature := if 0 < f.buoyancy then T.map (fun h => h * f.coolingRate)
                   else T.map (fun _ => 0)
    previousHorizontalVelocity := q2.2.2.1
    previousVerticalVelocity := q2.2.2.2
    horizontalVelocity := q2.1.map (fun v => v * (99/100))
    verticalVelocity := q2.2.1.map (fun v => v * (99/100))
    previousDensity := pD
    density := D.map (fun d => d * (199/200)) }

/-- Claim C1 counterexample: on a concrete state (temperature set at one
interior cell, buoyancy on, everything else zero) the source step and the
spec-ordered composition of the same stage functions produce different
temperature fields: the source transports temperature FIRST, with the
pre-update velocity, and only then applies buoyancy and updates velocity. -/
theorem c1_counterexample :
    (Fluid.step 4 1
      { timeStep := 1, diffusion := 0, viscosity := 0, buoyancy := 1, coolingRate := 1/2,
        previousDensity := List.replicate 36 0, density := List.replicate 36 0,
        previousTemperature := List.replicate 36 0,
        temperature := (List.replicate 36 (0 : ℚ)).set 7 1,
        horizontalVelocity := List.replicate 36 0, verticalVelocity := List.replicate 36 0,
        previousHorizontalVelocity := List.replicate 36 0,
        previousVerticalVelocity := List.replicate 36 0 }).temperature.getD
      (getGridIndex 4 1 1) 0
    ≠ (specStepClaim 4 1
      { timeStep := 1, diffusion := 0, viscosity := 0, buoyancy := 1, coolingRate := 1/2,
        previousDensity := List.replicate 36 0, density := List.replicate 36 0,
        previousTemperature := List.replicate 36 0,
        temperature := (List.replicate 36 (0 : ℚ)).set 7 1,
        horizontalVelocity := List.replicate 36 0, verticalVelocity := List.replicate 36 0,
        previousHorizontalVelocity := List.replicate 36 0,
        previousVerticalVelocity := List.replicate 36 0 }).temperature.getD
      (getGridIndex 4 1 1) 0 := by
  set_option maxRecDepth 10000 in
  with_unfolding_all decide

/-- Claim C1 as amended: step executes temperature diffusion, temperature
advection with the pre-update velocity, conditional buoyancy, velocity
diffusion, projection, velocity advection, projection, density diffusion,
density advection, decay -- with no vorticity-confinement stage. As a
consequence of this order, the temperature a step produces depends only on
the temperature buffers, the pre-update velocity and the scalar parameters:
it is unaffected by viscosity, density and every other buffer, which would
be impossible if scalars were transported after the velocity update as the
specification orders. -/
theorem c1_step_order (gs iters : ℕ) (f g : Fluid)
    (hdt : f.timeStep = g.timeStep) (hdiff : f.diffusion = g.diffusion)
    (hbuoy : f.buoyancy = g.buoyancy) (hcool : f.coolingRate = g.coolingRate)
    (hT : f.temperature = g.temperature)
    (hpT : f.previousTemperature = g.previousTemperature)
    (hhV : f.horizontalVelocity = g.horizontalVelocity)
    (hvV : f.verticalVelocity = g.verticalVelocity) :
    (Fluid.step gs iters f).temperature = (Fluid.step gs iters g).temperature := by
  simp only [Fluid.step]
  rw [hdt, hdiff, hbuoy, hcool, hT, hpT, hhV, hvV]

theorem c1_step_order_witness :
    (Fluid.step 3 1
      { mkFluid 3 1 (1/2) 5 with density := (List.replicate 25 (0 : ℚ)).set 6 3 }).temperature
      = (Fluid.step 3 1 (mkFluid 3 1 (1/2) 0)).temperature :=
  c1_step_order 3 1 _ _ rfl rfl rfl rfl rfl rfl rfl rfl
